import Mathlib

/-!
# Order service (`order.go`): shallow embedding and verified properties

The Go package defines an order aggregate `OrderAR`, two ports
(`OrderRepository`, `InventoryGateway`) and the service `OrderService` with
the operations `CreateOrder`, `ConfirmPay` and `CancelOrder`.

Modelling decisions:

* The ports are Go interfaces whose implementations live outside the package.
  They are parameters of the model: each method is a transition on an
  arbitrary world type `σ` that returns the method's Go results.
* `time.Now()` and `generateOrderID()` read the environment, so they are
  transitions on the world as well (`Runtime`).
* The `ctx` argument is only handed on to the ports; it is part of the port
  closures and not shown.
* `int64` fields are never computed with, so they are `Int`; `time.Time` is an
  abstract instant (`Nat`); `*time.Time` is `Option Nat`; `error` is
  `Option Error`; a `*OrderAR` returned by a port is `Option OrderAR`
  (`none` is the nil pointer) and stands for the value it points to: a port
  is taken not to write through an order pointer it is handed, and not to keep
  an alias of one it returns.
* Every run records the port calls it made, in order (`Run.calls`).
* Dereferencing a nil order is a Go run-time panic (`Outcome.panicked`).
* A history is a list of calls run one after the other (`runOps`); what the
  inventory answered over a history is read from a log kept by wrapped ports
  (`logService`); interleavings of two invocations run `ConfirmPay` cut at its
  port calls into three steps (`confirmPayStep`), which together are
  `ConfirmPay` again (`steps_refine_ConfirmPay`).
-/

namespace Order

/-! ## Data model -/

/-- A non-nil Go `error` value. -/
structure Error where
  msg : String
deriving DecidableEq, Repr

def Order_status_Pending : String := "pending"
def Order_status_Paid : String := "paid"
def Order_status_Failed : String := "failed"
def Order_status_Canceled : String := "canceled"

/-- The aggregate root `OrderAR`. -/
structure OrderAR where
  ID : String
  UserID : Int
  ItemID : Int
  FreezeID : String
  Price : Int
  Status : String
  CreateTime : Nat
  PayTime : Option Nat
deriving DecidableEq, Repr

/-! ## Ports -/

/-- The interface `OrderRepository`; each method returns its Go results and the next world. -/
structure OrderRepository (σ : Type) where
  Save : OrderAR → σ → Option Error × σ
  FindByID : String → σ → (Option OrderAR × Option Error) × σ
  UpdateStatus : String → String → σ → Option Error × σ

/-- The interface `InventoryGateway`. -/
structure InventoryGateway (σ : Type) where
  Confirm : Int → String → σ → Option Error × σ
  Release : Int → String → σ → Option Error × σ

/-- The struct `OrderService`. -/
structure OrderService (σ : Type) where
  orderRepo : OrderRepository σ
  inv : InventoryGateway σ

def NewOrderService {σ : Type} (repo : OrderRepository σ) (inv : InventoryGateway σ) :
    OrderService σ :=
  { orderRepo := repo, inv := inv }

/-- The ambient functions the service reads: `time.Now()` and `generateOrderID()`. -/
structure Runtime (σ : Type) where
  timeNow : σ → Nat × σ
  generateOrderID : σ → String × σ

/-- One call on a port, with its arguments. -/
inductive Call where
  | Save (order : OrderAR)
  | FindByID (id : String)
  | UpdateStatus (id : String) (newStatus : String)
  | Confirm (itemID : Int) (freezeID : String)
  | Release (itemID : Int) (freezeID : String)
deriving DecidableEq, Repr

/-- How a Go call ends: it returns its results, or it panics. -/
inductive Outcome (α : Type) where
  | returned (v : α)
  | panicked
deriving DecidableEq, Repr

/-- The result of running an operation: outcome, final world, port calls in order. -/
structure Run (σ α : Type) where
  out : Outcome α
  world : σ
  calls : List Call

/-! ## The service operations -/

/-- The method `OrderService.CreateOrder`; results are `(*OrderAR, error)`. -/
def CreateOrder {σ : Type} (rt : Runtime σ) (s : OrderService σ)
    (userID itemID : Int) (freezeID : String) (price : Int) (w : σ) :
    Run σ (Option OrderAR × Option Error) :=
  let g := rt.generateOrderID w
  let t := rt.timeNow g.2
  let order : OrderAR :=
    { ID := g.1, UserID := userID, ItemID := itemID, FreezeID := freezeID, Price := price,
      Status := Order_status_Pending, CreateTime := t.1, PayTime := none }
  let r := s.orderRepo.Save order t.2
  match r.1 with
  | some err => { out := .returned (none, some err), world := r.2, calls := [.Save order] }
  | none => { out := .returned (some order, none), world := r.2, calls := [.Save order] }

/-- The method `OrderService.ConfirmPay`; the result is `error`. -/
def ConfirmPay {σ : Type} (rt : Runtime σ) (s : OrderService σ) (orderID : String) (w : σ) :
    Run σ (Option Error) :=
  let f := s.orderRepo.FindByID orderID w
  match f.1 with
  | (_, some err) => { out := .returned (some err), world := f.2, calls := [.FindByID orderID] }
  | (none, none) => { out := .panicked, world := f.2, calls := [.FindByID orderID] }
  | (some order, none) =>
    if order.Status ≠ Order_status_Pending then
      { out := .returned none, world := f.2, calls := [.FindByID orderID] }
    else
      let c := s.inv.Confirm order.ItemID order.FreezeID f.2
      match c.1 with
      | some err =>
        { out := .returned (some err), world := c.2,
          calls := [.FindByID orderID, .Confirm order.ItemID order.FreezeID] }
      | none =>
        let now := rt.timeNow c.2
        let order1 : OrderAR :=
          { order with Status := Order_status_Paid, PayTime := some now.1 }
        let r := s.orderRepo.Save order1 now.2
        { out := .returned r.1, world := r.2,
          calls := [.FindByID orderID, .Confirm order.ItemID order.FreezeID, .Save order1] }

/-- The method `OrderService.CancelOrder`; the result is `error`. -/
def CancelOrder {σ : Type} (s : OrderService σ) (orderID : String) (w : σ) :
    Run σ (Option Error) :=
  let f := s.orderRepo.FindByID orderID w
  match f.1 with
  | (_, some err) => { out := .returned (some err), world := f.2, calls := [.FindByID orderID] }
  | (none, none) => { out := .panicked, world := f.2, calls := [.FindByID orderID] }
  | (some order, none) =>
    if order.Status ≠ Order_status_Pending then
      { out := .returned none, world := f.2, calls := [.FindByID orderID] }
    else
      let c := s.inv.Release order.ItemID order.FreezeID f.2
      match c.1 with
      | some err =>
        { out := .returned (some err), world := c.2,
          calls := [.FindByID orderID, .Release order.ItemID order.FreezeID] }
      | none =>
        let order1 : OrderAR := { order with Status := Order_status_Canceled }
        let r := s.orderRepo.Save order1 c.2
        { out := .returned r.1, world := r.2,
          calls := [.FindByID orderID, .Release order.ItemID order.FreezeID, .Save order1] }

/-! ## The store the properties are stated against

The properties speak of "the stored order". `StoreLaw` says what that means
for an environment: a view `stored` of the world as a map from order id to
order, which `FindByID` reads, which a successful `Save` updates at the id of
the saved order, and which the inventory calls, the clock and the id
generator leave alone. -/

/-- A store in which `FindByID` returns the last order saved under that id. -/
structure StoreLaw {σ : Type} (rt : Runtime σ) (s : OrderService σ) where
  stored : σ → String → Option OrderAR
  keyed : ∀ w id o, stored w id = some o → o.ID = id
  find_iff : ∀ w id o, (s.orderRepo.FindByID id w).1 = (some o, none) ↔ stored w id = some o
  find_frame : ∀ w id, stored (s.orderRepo.FindByID id w).2 = stored w
  save_ok : ∀ w o, (s.orderRepo.Save o w).1 = none →
    stored (s.orderRepo.Save o w).2 = Function.update (stored w) o.ID (some o)
  confirm_frame : ∀ w i f, stored (s.inv.Confirm i f w).2 = stored w
  release_frame : ∀ w i f, stored (s.inv.Release i f w).2 = stored w
  now_frame : ∀ w, stored (rt.timeNow w).2 = stored w
  genid_frame : ∀ w, stored (rt.generateOrderID w).2 = stored w

/-! ## An in-memory environment

A concrete environment that satisfies `StoreLaw`: the store is the list of
saved orders, newest first; the outcome of each `Save`, `Confirm` and
`Release` call, and each generated id, is scripted by the number of
environment interactions made so far. -/

/-- The world of the in-memory environment. -/
structure Mem where
  orders : List OrderAR
  tick : Nat
deriving DecidableEq, Repr

/-- What the environment answers at each interaction. -/
structure Script where
  saveErr : Nat → Option Error
  confirmErr : Nat → Option Error
  releaseErr : Nat → Option Error
  ids : Nat → String

def ErrNotFound : Error := { msg := "not found" }

def Mem.bump (w : Mem) : Mem := { w with tick := w.tick + 1 }

def Mem.lookup (w : Mem) (id : String) : Option OrderAR :=
  w.orders.find? (fun o => o.ID == id)

def memRepo (sc : Script) : OrderRepository Mem where
  Save o w :=
    match sc.saveErr w.tick with
    | some e => (some e, w.bump)
    | none => (none, { orders := o :: w.orders, tick := w.tick + 1 })
  FindByID id w :=
    match w.lookup id with
    | some o => ((some o, none), w.bump)
    | none => ((none, some ErrNotFound), w.bump)
  UpdateStatus id newStatus w :=
    match w.lookup id with
    | some o => (none, { orders := { o with Status := newStatus } :: w.orders, tick := w.tick + 1 })
    | none => (some ErrNotFound, w.bump)

def memInv (sc : Script) : InventoryGateway Mem where
  Confirm _ _ w := (sc.confirmErr w.tick, w.bump)
  Release _ _ w := (sc.releaseErr w.tick, w.bump)

def memService (sc : Script) : OrderService Mem :=
  NewOrderService (memRepo sc) (memInv sc)

def memRuntime (sc : Script) : Runtime Mem where
  timeNow w := (w.tick, w.bump)
  generateOrderID w := (sc.ids w.tick, w.bump)

/-- The in-memory environment is a store in the sense of `StoreLaw`. -/
def memLaw (sc : Script) : StoreLaw (memRuntime sc) (memService sc) where
  stored := Mem.lookup
  keyed := by
    intro w id o h
    have hp := List.find?_some h
    simpa using hp
  find_iff := by
    intro w id o
    simp only [memService, NewOrderService, memRepo]
    cases h : w.lookup id <;> simp
  find_frame := by
    intro w id
    simp only [memService, NewOrderService, memRepo]
    cases h : w.lookup id <;> rfl
  save_ok := by
    intro w o h
    simp only [memService, NewOrderService, memRepo] at h ⊢
    cases hs : sc.saveErr w.tick with
    | some e => simp [hs] at h
    | none =>
      funext k
      by_cases hk : k = o.ID
      · subst hk
        simp [Mem.lookup]
      · have hk2 : ¬ o.ID = k := fun h2 => hk h2.symm
        simp [Mem.lookup, Function.update, hk, hk2]
  confirm_frame := by intro w i f; rfl
  release_frame := by intro w i f; rfl
  now_frame := by intro w; rfl
  genid_frame := by intro w; rfl

/-! ## Example data -/

/-- A script in which every call succeeds. -/
def okScript : Script :=
  { saveErr := fun _ => none, confirmErr := fun _ => none, releaseErr := fun _ => none,
    ids := fun _ => "o-1" }

/-- The error the failing inventory calls of the examples return. -/
def ErrFreeze : Error := { msg := "freeze unknown" }

/-- The error the failing store writes of the examples return. -/
def ErrStore : Error := { msg := "storage failure" }

/-- A script in which every `Confirm` fails. -/
def confirmFailScript : Script := { okScript with confirmErr := fun _ => some ErrFreeze }

/-- A script in which every `Release` fails. -/
def releaseFailScript : Script := { okScript with releaseErr := fun _ => some ErrFreeze }

/-- A script in which every `Save` fails. -/
def saveFailScript : Script := { okScript with saveErr := fun _ => some ErrStore }

/-- A script in which only the `Save` made at interaction `n` fails. -/
def saveFailsAt (n : Nat) : Script :=
  { okScript with saveErr := fun k => if k = n then some ErrStore else none }

/-- A script in which only the `Confirm` made at interaction `n` fails. -/
def confirmFailsAt (n : Nat) : Script :=
  { okScript with confirmErr := fun k => if k = n then some ErrFreeze else none }

/-- The order of the test scenarios: user 1, item 42, freeze "f-1", price 500. -/
def pendingOrder : OrderAR :=
  { ID := "o-1", UserID := 1, ItemID := 42, FreezeID := "f-1", Price := 500,
    Status := Order_status_Pending, CreateTime := 7, PayTime := none }

def paidOrder : OrderAR :=
  { pendingOrder with Status := Order_status_Paid, PayTime := some 9 }

/-- The order a confirmation at time 2 turns `pendingOrder` into. -/
def paidAt2 : OrderAR :=
  { pendingOrder with Status := Order_status_Paid, PayTime := some 2 }

def canceledOrder : OrderAR :=
  { pendingOrder with Status := Order_status_Canceled }

/-! ## Sequences of calls

A caller's history is a list of `ConfirmPay` and `CancelOrder` calls, each
with its own order id, run one after the other; every call starts in the
world the previous one left, whatever its outcome was. -/

/-- One call of a history. -/
inductive Op where
  | confirmPay (orderID : String)
  | cancelOrder (orderID : String)
deriving DecidableEq, Repr

/-- The world one call leaves. -/
def runOp {σ : Type} (rt : Runtime σ) (s : OrderService σ) (op : Op) (w : σ) : σ :=
  match op with
  | .confirmPay orderID => (ConfirmPay rt s orderID w).world
  | .cancelOrder orderID => (CancelOrder s orderID w).world

/-- The world a history leaves. -/
def runOps {σ : Type} (rt : Runtime σ) (s : OrderService σ) : List Op → σ → σ
  | [], w => w
  | op :: ops, w => runOps rt s ops (runOp rt s op w)

/-- The worlds a history passes through: the initial one, then the one after each call. -/
def worldsAfter {σ : Type} (rt : Runtime σ) (s : OrderService σ) : List Op → σ → List σ
  | [], w => [w]
  | op :: ops, w => w :: worldsAfter rt s ops (runOp rt s op w)

/-- A failed `Save` saved nothing: it leaves the stored orders as they were. -/
def SaveFailKeeps {σ : Type} {rt : Runtime σ} {s : OrderService σ} (L : StoreLaw rt s) : Prop :=
  ∀ w o e, (s.orderRepo.Save o w).1 = some e → L.stored (s.orderRepo.Save o w).2 = L.stored w

/-- The stored status of an order id, if an order is stored under it. -/
def statusAt {σ : Type} {rt : Runtime σ} {s : OrderService σ} (L : StoreLaw rt s)
    (orderID : String) (w : σ) : Option String :=
  (L.stored w orderID).map OrderAR.Status

/-- The number of positions of a list at which the next entry differs. -/
def changes {α : Type} [DecidableEq α] : List α → Nat
  | a :: b :: rest => (if a = b then 0 else 1) + changes (b :: rest)
  | _ => 0

/-- A status transition the state machine allows: none, Pending to Paid, Pending to Canceled. -/
def AllowedMove (a b : Option String) : Prop :=
  a = b ∨ (a = some Order_status_Pending ∧
    (b = some Order_status_Paid ∨ b = some Order_status_Canceled))

/-- The versions of an order `o` the service can store after it stored `o`: `o` itself, `o`
made Paid with a payment timestamp, `o` made Canceled. -/
def InLifecycle (o : OrderAR) (x : Option OrderAR) : Prop :=
  x = some o ∨
  (∃ t, x = some { o with Status := Order_status_Paid, PayTime := some t }) ∨
  x = some { o with Status := Order_status_Canceled }

/-! ## Recording what the inventory answered

`Run.calls` lists the calls of one run without their results. To speak of
inventory calls that succeeded over a whole history, any environment is
wrapped so that each inventory call appends itself and its result to a log
carried next to the world. The service code is the same; only the ports it
is handed differ. -/

/-- An inventory call together with the error it returned (`none` is success). -/
inductive Event where
  | confirm (itemID : Int) (freezeID : String) (err : Option Error)
  | release (itemID : Int) (freezeID : String) (err : Option Error)
deriving DecidableEq, Repr

def logRepo {σ : Type} (repo : OrderRepository σ) : OrderRepository (σ × List Event) where
  Save o x := ((repo.Save o x.1).1, ((repo.Save o x.1).2, x.2))
  FindByID id x := ((repo.FindByID id x.1).1, ((repo.FindByID id x.1).2, x.2))
  UpdateStatus id st x :=
    ((repo.UpdateStatus id st x.1).1, ((repo.UpdateStatus id st x.1).2, x.2))

def logInv {σ : Type} (inv : InventoryGateway σ) : InventoryGateway (σ × List Event) where
  Confirm i f x :=
    ((inv.Confirm i f x.1).1,
      ((inv.Confirm i f x.1).2, x.2 ++ [.confirm i f (inv.Confirm i f x.1).1]))
  Release i f x :=
    ((inv.Release i f x.1).1,
      ((inv.Release i f x.1).2, x.2 ++ [.release i f (inv.Release i f x.1).1]))

def logService {σ : Type} (s : OrderService σ) : OrderService (σ × List Event) :=
  NewOrderService (logRepo s.orderRepo) (logInv s.inv)

def logRuntime {σ : Type} (rt : Runtime σ) : Runtime (σ × List Event) where
  timeNow x := ((rt.timeNow x.1).1, ((rt.timeNow x.1).2, x.2))
  generateOrderID x := ((rt.generateOrderID x.1).1, ((rt.generateOrderID x.1).2, x.2))

/-- Whether an event is an inventory call that succeeded. -/
def Event.succeeded : Event → Bool
  | .confirm _ _ none => true
  | .release _ _ none => true
  | _ => false

/-- The stored version of `order` is backed by the log: it is `order` itself, or `order` made
Paid with a successful `Confirm` of its item and freeze ids in the log, or `order` made
Canceled with a successful `Release` of them in the log. -/
def Backed {σ : Type} {rt : Runtime σ} {s : OrderService σ} (L : StoreLaw rt s)
    (order : OrderAR) (x : σ × List Event) : Prop :=
  L.stored x.1 order.ID = some order ∨
  (∃ t, L.stored x.1 order.ID
      = some { order with Status := Order_status_Paid, PayTime := some t } ∧
    Event.confirm order.ItemID order.FreezeID none ∈ x.2) ∨
  (L.stored x.1 order.ID = some { order with Status := Order_status_Canceled } ∧
    Event.release order.ItemID order.FreezeID none ∈ x.2)

/-! ## `ConfirmPay` in steps

For interleavings, one invocation of `ConfirmPay` is cut at its port calls
into three atomic steps: load (`FindByID` and the status test), inventory
call (`Confirm`), persist (`time.Now()`, the two assignments and `Save`).
Between steps an invocation holds only its local variable `order`. -/

/-- Where an invocation of `ConfirmPay` stands. -/
inductive ConfirmPayPC where
  | start
  | loaded (order : OrderAR)
  | confirmed (order : OrderAR)
  | finished (out : Outcome (Option Error))
deriving DecidableEq, Repr

/-- One atomic step of an invocation: next position, next world, the port call made. -/
def confirmPayStep {σ : Type} (rt : Runtime σ) (s : OrderService σ) (orderID : String)
    (pc : ConfirmPayPC) (w : σ) : ConfirmPayPC × σ × List Call :=
  match pc with
  | .start =>
    let f := s.orderRepo.FindByID orderID w
    match f.1 with
    | (_, some err) => (.finished (.returned (some err)), f.2, [.FindByID orderID])
    | (none, none) => (.finished .panicked, f.2, [.FindByID orderID])
    | (some order, none) =>
      if order.Status ≠ Order_status_Pending then
        (.finished (.returned none), f.2, [.FindByID orderID])
      else
        (.loaded order, f.2, [.FindByID orderID])
  | .loaded order =>
    let c := s.inv.Confirm order.ItemID order.FreezeID w
    match c.1 with
    | some err => (.finished (.returned (some err)), c.2, [.Confirm order.ItemID order.FreezeID])
    | none => (.confirmed order, c.2, [.Confirm order.ItemID order.FreezeID])
  | .confirmed order =>
    let now := rt.timeNow w
    let order1 : OrderAR := { order with Status := Order_status_Paid, PayTime := some now.1 }
    let r := s.orderRepo.Save order1 now.2
    (.finished (.returned r.1), r.2, [.Save order1])
  | .finished out => (.finished out, w, [])

/-- Two invocations of `ConfirmPay` on one order id, the shared world, and the port calls
made so far, each tagged with the invocation that made it (`false` first, `true` second). -/
structure Conf (σ : Type) where
  first : ConfirmPayPC
  second : ConfirmPayPC
  world : σ
  trace : List (Bool × Call)

/-- The invocation named by `who` takes its next step. -/
def Conf.step {σ : Type} (rt : Runtime σ) (s : OrderService σ) (orderID : String)
    (c : Conf σ) (who : Bool) : Conf σ :=
  match who with
  | false =>
    let r := confirmPayStep rt s orderID c.first c.world
    { c with first := r.1, world := r.2.1, trace := c.trace ++ r.2.2.map (fun k => (false, k)) }
  | true =>
    let r := confirmPayStep rt s orderID c.second c.world
    { c with second := r.1, world := r.2.1, trace := c.trace ++ r.2.2.map (fun k => (true, k)) }

/-- An interleaving is a schedule: the list of who steps next. -/
def interleave {σ : Type} (rt : Runtime σ) (s : OrderService σ) (orderID : String) :
    List Bool → Conf σ → Conf σ
  | [], c => c
  | who :: rest, c => interleave rt s orderID rest (c.step rt s orderID who)

/-- Both invocations about to start in world `w`. -/
def Conf.init {σ : Type} (w : σ) : Conf σ :=
  { first := .start, second := .start, world := w, trace := [] }

/-- An invocation that holds no order other than `o` in its local variable. -/
def HoldsOrder (o : OrderAR) (pc : ConfirmPayPC) : Prop :=
  pc = .start ∨ pc = .loaded o ∨ pc = .confirmed o ∨ ∃ out, pc = .finished out

/-- The stored order is `o`, or `o` made Paid with some payment timestamp. -/
def PendingOrPaid (o : OrderAR) (x : Option OrderAR) : Prop :=
  x = some o ∨ ∃ t, x = some { o with Status := Order_status_Paid, PayTime := some t }

/-- The port calls of one invocation in a trace. -/
def callsOf (who : Bool) (trace : List (Bool × Call)) : List Call :=
  (trace.filter (fun k => k.1 == who)).map Prod.snd

/-! ## Runs of the operations, case by case -/

section Runs

variable {σ : Type} (rt : Runtime σ) (s : OrderService σ)

theorem ConfirmPay_find_err (orderID : String) (w : σ) (p : Option OrderAR) (e : Error)
    (hf : (s.orderRepo.FindByID orderID w).1 = (p, some e)) :
    ConfirmPay rt s orderID w =
      { out := .returned (some e), world := (s.orderRepo.FindByID orderID w).2,
        calls := [.FindByID orderID] } := by
  simp only [ConfirmPay, hf]

theorem ConfirmPay_not_pending (orderID : String) (w : σ) (o : OrderAR)
    (hf : (s.orderRepo.FindByID orderID w).1 = (some o, none))
    (hne : o.Status ≠ Order_status_Pending) :
    ConfirmPay rt s orderID w =
      { out := .returned none, world := (s.orderRepo.FindByID orderID w).2,
        calls := [.FindByID orderID] } := by
  simp only [ConfirmPay, hf, hne, ne_eq, not_false_eq_true, if_true]

theorem ConfirmPay_confirm_err (orderID : String) (w : σ) (o : OrderAR) (e : Error)
    (hf : (s.orderRepo.FindByID orderID w).1 = (some o, none))
    (hp : o.Status = Order_status_Pending)
    (hc : (s.inv.Confirm o.ItemID o.FreezeID (s.orderRepo.FindByID orderID w).2).1 = some e) :
    ConfirmPay rt s orderID w =
      { out := .returned (some e),
        world := (s.inv.Confirm o.ItemID o.FreezeID (s.orderRepo.FindByID orderID w).2).2,
        calls := [.FindByID orderID, .Confirm o.ItemID o.FreezeID] } := by
  simp only [ConfirmPay, hf, hp, hc, ne_eq, not_true_eq_false, if_false]

theorem ConfirmPay_confirm_ok (orderID : String) (w w1 w2 w3 : σ) (o : OrderAR) (now : Nat)
    (hf : s.orderRepo.FindByID orderID w = ((some o, none), w1))
    (hp : o.Status = Order_status_Pending)
    (hc : s.inv.Confirm o.ItemID o.FreezeID w1 = (none, w2))
    (hn : rt.timeNow w2 = (now, w3)) :
    ConfirmPay rt s orderID w =
      { out := .returned
          (s.orderRepo.Save { o with Status := Order_status_Paid, PayTime := some now } w3).1,
        world :=
          (s.orderRepo.Save { o with Status := Order_status_Paid, PayTime := some now } w3).2,
        calls := [.FindByID orderID, .Confirm o.ItemID o.FreezeID,
          .Save { o with Status := Order_status_Paid, PayTime := some now }] } := by
  simp only [ConfirmPay, hf, hp, hc, hn, ne_eq, not_true_eq_false, if_false]

theorem CancelOrder_find_err (orderID : String) (w : σ) (p : Option OrderAR) (e : Error)
    (hf : (s.orderRepo.FindByID orderID w).1 = (p, some e)) :
    CancelOrder s orderID w =
      { out := .returned (some e), world := (s.orderRepo.FindByID orderID w).2,
        calls := [.FindByID orderID] } := by
  simp only [CancelOrder, hf]

theorem CancelOrder_not_pending (orderID : String) (w : σ) (o : OrderAR)
    (hf : (s.orderRepo.FindByID orderID w).1 = (some o, none))
    (hne : o.Status ≠ Order_status_Pending) :
    CancelOrder s orderID w =
      { out := .returned none, world := (s.orderRepo.FindByID orderID w).2,
        calls := [.FindByID orderID] } := by
  simp only [CancelOrder, hf, hne, ne_eq, not_false_eq_true, if_true]

theorem CancelOrder_release_err (orderID : String) (w w1 w2 : σ) (o : OrderAR) (e : Error)
    (hf : s.orderRepo.FindByID orderID w = ((some o, none), w1))
    (hp : o.Status = Order_status_Pending)
    (hc : s.inv.Release o.ItemID o.FreezeID w1 = (some e, w2)) :
    CancelOrder s orderID w =
      { out := .returned (some e), world := w2,
        calls := [.FindByID orderID, .Release o.ItemID o.FreezeID] } := by
  simp only [CancelOrder, hf, hp, hc, ne_eq, not_true_eq_false, if_false]

theorem CancelOrder_release_ok (orderID : String) (w w1 w2 : σ) (o : OrderAR)
    (hf : s.orderRepo.FindByID orderID w = ((some o, none), w1))
    (hp : o.Status = Order_status_Pending)
    (hc : s.inv.Release o.ItemID o.FreezeID w1 = (none, w2)) :
    CancelOrder s orderID w =
      { out := .returned (s.orderRepo.Save { o with Status := Order_status_Canceled } w2).1,
        world := (s.orderRepo.Save { o with Status := Order_status_Canceled } w2).2,
        calls := [.FindByID orderID, .Release o.ItemID o.FreezeID,
          .Save { o with Status := Order_status_Canceled }] } := by
  simp only [CancelOrder, hf, hp, hc, ne_eq, not_true_eq_false, if_false]

/-- In a lawful store a stored order is what `FindByID` returns, as a full result. -/
theorem StoreLaw.find_eq (L : StoreLaw rt s) (orderID : String) (w w1 : σ) (o : OrderAR)
    (hst : L.stored w orderID = some o) (hw : (s.orderRepo.FindByID orderID w).2 = w1) :
    s.orderRepo.FindByID orderID w = ((some o, none), w1) :=
  Prod.ext ((L.find_iff w orderID o).2 hst) hw

/-- A successful `Save` of an order puts it in the store under its own id. -/
theorem StoreLaw.stored_save (L : StoreLaw rt s) (w w1 : σ) (o : OrderAR)
    (hs : s.orderRepo.Save o w = (none, w1)) :
    L.stored w1 = Function.update (L.stored w) o.ID (some o) := by
  have h := L.save_ok w o (by rw [hs])
  rw [hs] at h
  exact h

/-- The inventory calls do not touch the store. -/
theorem StoreLaw.stored_confirm (L : StoreLaw rt s) (w w1 : σ) (i : Int) (f : String)
    (r : Option Error) (hc : s.inv.Confirm i f w = (r, w1)) : L.stored w1 = L.stored w := by
  have h := L.confirm_frame w i f
  rw [hc] at h
  exact h

theorem StoreLaw.stored_release (L : StoreLaw rt s) (w w1 : σ) (i : Int) (f : String)
    (r : Option Error) (hc : s.inv.Release i f w = (r, w1)) : L.stored w1 = L.stored w := by
  have h := L.release_frame w i f
  rw [hc] at h
  exact h

theorem StoreLaw.stored_now (L : StoreLaw rt s) (w w1 : σ) (t : Nat)
    (hn : rt.timeNow w = (t, w1)) : L.stored w1 = L.stored w := by
  have h := L.now_frame w
  rw [hn] at h
  exact h

/-- Against a lawful store, `ConfirmPay` on an order that is not Pending only loads it. -/
theorem ConfirmPay_noop (L : StoreLaw rt s) (orderID : String) (w : σ) (o : OrderAR)
    (hst : L.stored w orderID = some o) (hne : o.Status ≠ Order_status_Pending) :
    (ConfirmPay rt s orderID w).out = .returned none ∧
    (ConfirmPay rt s orderID w).calls = [.FindByID orderID] ∧
    L.stored (ConfirmPay rt s orderID w).world = L.stored w := by
  rw [ConfirmPay_not_pending rt s orderID w o ((L.find_iff w orderID o).2 hst) hne]
  exact ⟨rfl, rfl, L.find_frame w orderID⟩

/-- Against a lawful store, `CancelOrder` on an order that is not Pending only loads it. -/
theorem CancelOrder_noop (L : StoreLaw rt s) (orderID : String) (w : σ) (o : OrderAR)
    (hst : L.stored w orderID = some o) (hne : o.Status ≠ Order_status_Pending) :
    (CancelOrder s orderID w).out = .returned none ∧
    (CancelOrder s orderID w).calls = [.FindByID orderID] ∧
    L.stored (CancelOrder s orderID w).world = L.stored w := by
  rw [CancelOrder_not_pending s orderID w o ((L.find_iff w orderID o).2 hst) hne]
  exact ⟨rfl, rfl, L.find_frame w orderID⟩

/-- Against a lawful store, a `ConfirmPay` whose `Confirm` and `Save` succeed stores the
loaded order as Paid at the time read. -/
theorem ConfirmPay_paid (L : StoreLaw rt s) (orderID : String) (w w1 w2 w3 w4 : σ)
    (o : OrderAR) (now : Nat)
    (hst : L.stored w orderID = some o) (hp : o.Status = Order_status_Pending)
    (hf : (s.orderRepo.FindByID orderID w).2 = w1)
    (hc : s.inv.Confirm o.ItemID o.FreezeID w1 = (none, w2))
    (hn : rt.timeNow w2 = (now, w3))
    (hs : s.orderRepo.Save { o with Status := Order_status_Paid, PayTime := some now } w3
      = (none, w4)) :
    ConfirmPay rt s orderID w =
      { out := .returned none, world := w4,
        calls := [.FindByID orderID, .Confirm o.ItemID o.FreezeID,
          .Save { o with Status := Order_status_Paid, PayTime := some now }] } ∧
    L.stored w4 orderID = some { o with Status := Order_status_Paid, PayTime := some now } := by
  have hid : o.ID = orderID := L.keyed w orderID o hst
  refine ⟨?_, ?_⟩
  · rw [ConfirmPay_confirm_ok rt s orderID w w1 w2 w3 o now
      (L.find_eq rt s orderID w w1 o hst hf) hp hc hn, hs]
  · subst hid
    rw [L.stored_save rt s w3 w4 _ hs]
    exact Function.update_same _ _ _

/-- Against a lawful store, a `CancelOrder` whose `Release` and `Save` succeed stores the
loaded order as Canceled. -/
theorem CancelOrder_canceled (L : StoreLaw rt s) (orderID : String) (w w1 w2 w3 : σ)
    (o : OrderAR)
    (hst : L.stored w orderID = some o) (hp : o.Status = Order_status_Pending)
    (hf : (s.orderRepo.FindByID orderID w).2 = w1)
    (hc : s.inv.Release o.ItemID o.FreezeID w1 = (none, w2))
    (hs : s.orderRepo.Save { o with Status := Order_status_Canceled } w2 = (none, w3)) :
    CancelOrder s orderID w =
      { out := .returned none, world := w3,
        calls := [.FindByID orderID, .Release o.ItemID o.FreezeID,
          .Save { o with Status := Order_status_Canceled }] } ∧
    L.stored w3 orderID = some { o with Status := Order_status_Canceled } := by
  have hid : o.ID = orderID := L.keyed w orderID o hst
  refine ⟨?_, ?_⟩
  · rw [CancelOrder_release_ok s orderID w w1 w2 o
      (L.find_eq rt s orderID w w1 o hst hf) hp hc, hs]
  · subst hid
    rw [L.stored_save rt s w2 w3 _ hs]
    exact Function.update_same _ _ _

theorem paid_ne_pending : Order_status_Paid ≠ Order_status_Pending := by decide

theorem canceled_ne_pending : Order_status_Canceled ≠ Order_status_Pending := by decide

theorem ConfirmPay_panic (orderID : String) (w : σ)
    (hf : (s.orderRepo.FindByID orderID w).1 = (none, none)) :
    ConfirmPay rt s orderID w =
      { out := .panicked, world := (s.orderRepo.FindByID orderID w).2,
        calls := [.FindByID orderID] } := by
  simp only [ConfirmPay, hf]

theorem CancelOrder_panic (orderID : String) (w : σ)
    (hf : (s.orderRepo.FindByID orderID w).1 = (none, none)) :
    CancelOrder s orderID w =
      { out := .panicked, world := (s.orderRepo.FindByID orderID w).2,
        calls := [.FindByID orderID] } := by
  simp only [CancelOrder, hf]

/-- What `ConfirmPay` can do to a lawful store in which a failed `Save` saves nothing:
leave it as it is, or replace a Pending order under the looked-up id by its Paid version. -/
theorem ConfirmPay_stored_cases (L : StoreLaw rt s) (hk : SaveFailKeeps L)
    (orderID : String) (w : σ) :
    L.stored (ConfirmPay rt s orderID w).world = L.stored w ∨
    ∃ o t, L.stored w orderID = some o ∧ o.Status = Order_status_Pending ∧
      L.stored (ConfirmPay rt s orderID w).world =
        Function.update (L.stored w) orderID
          (some { o with Status := Order_status_Paid, PayTime := some t }) := by
  rcases hfr : (s.orderRepo.FindByID orderID w).1 with ⟨p, e⟩
  cases e with
  | some e =>
    left
    rw [ConfirmPay_find_err rt s orderID w p e hfr]
    exact L.find_frame w orderID
  | none =>
    cases p with
    | none =>
      left
      rw [ConfirmPay_panic rt s orderID w hfr]
      exact L.find_frame w orderID
    | some o =>
      have hst : L.stored w orderID = some o := (L.find_iff w orderID o).1 hfr
      by_cases hp : o.Status = Order_status_Pending
      · rcases hcr : s.inv.Confirm o.ItemID o.FreezeID (s.orderRepo.FindByID orderID w).2
          with ⟨ce, w2⟩
        have hw2 : L.stored w2 = L.stored w := by
          rw [L.stored_confirm rt s _ w2 _ _ _ hcr, L.find_frame]
        cases ce with
        | some e =>
          left
          rw [ConfirmPay_confirm_err rt s orderID w o e hfr hp (by rw [hcr]), hcr]
          exact hw2
        | none =>
          rcases hnr : rt.timeNow w2 with ⟨now, w3⟩
          have hw3 : L.stored w3 = L.stored w := by
            rw [L.stored_now rt s w2 w3 now hnr, hw2]
          rw [ConfirmPay_confirm_ok rt s orderID w _ w2 w3 o now
            (L.find_eq rt s orderID w _ o hst rfl) hp hcr hnr]
          cases hsr : (s.orderRepo.Save
            { o with Status := Order_status_Paid, PayTime := some now } w3).1 with
          | some e =>
            left
            show L.stored (s.orderRepo.Save _ w3).2 = L.stored w
            rw [hk w3 _ e hsr, hw3]
          | none =>
            right
            refine ⟨o, now, hst, hp, ?_⟩
            show L.stored (s.orderRepo.Save _ w3).2 = _
            rw [L.save_ok w3 _ hsr, hw3]
            have hid : o.ID = orderID := L.keyed w orderID o hst
            simp only [hid]
      · left
        rw [ConfirmPay_not_pending rt s orderID w o hfr hp]
        exact L.find_frame w orderID

/-- What `CancelOrder` can do to such a store: leave it as it is, or replace a Pending order
under the looked-up id by its Canceled version. -/
theorem CancelOrder_stored_cases (L : StoreLaw rt s) (hk : SaveFailKeeps L)
    (orderID : String) (w : σ) :
    L.stored (CancelOrder s orderID w).world = L.stored w ∨
    ∃ o, L.stored w orderID = some o ∧ o.Status = Order_status_Pending ∧
      L.stored (CancelOrder s orderID w).world =
        Function.update (L.stored w) orderID
          (some { o with Status := Order_status_Canceled }) := by
  rcases hfr : (s.orderRepo.FindByID orderID w).1 with ⟨p, e⟩
  cases e with
  | some e =>
    left
    rw [CancelOrder_find_err s orderID w p e hfr]
    exact L.find_frame w orderID
  | none =>
    cases p with
    | none =>
      left
      rw [CancelOrder_panic s orderID w hfr]
      exact L.find_frame w orderID
    | some o =>
      have hst : L.stored w orderID = some o := (L.find_iff w orderID o).1 hfr
      by_cases hp : o.Status = Order_status_Pending
      · rcases hcr : s.inv.Release o.ItemID o.FreezeID (s.orderRepo.FindByID orderID w).2
          with ⟨ce, w2⟩
        have hw2 : L.stored w2 = L.stored w := by
          rw [L.stored_release rt s _ w2 _ _ _ hcr, L.find_frame]
        cases ce with
        | some e =>
          left
          rw [CancelOrder_release_err s orderID w _ w2 o e
            (L.find_eq rt s orderID w _ o hst rfl) hp hcr]
          exact hw2
        | none =>
          rw [CancelOrder_release_ok s orderID w _ w2 o
            (L.find_eq rt s orderID w _ o hst rfl) hp hcr]
          cases hsr : (s.orderRepo.Save { o with Status := Order_status_Canceled } w2).1 with
          | some e =>
            left
            show L.stored (s.orderRepo.Save _ w2).2 = L.stored w
            rw [hk w2 _ e hsr, hw2]
          | none =>
            right
            refine ⟨o, hst, hp, ?_⟩
            show L.stored (s.orderRepo.Save _ w2).2 = _
            rw [L.save_ok w2 _ hsr, hw2]
            have hid : o.ID = orderID := L.keyed w orderID o hst
            simp only [hid]
      · left
        rw [CancelOrder_not_pending s orderID w o hfr hp]
        exact L.find_frame w orderID

/-- What one call can do to the order stored under an id: nothing, or move it from Pending
to Paid with a payment timestamp, or from Pending to Canceled. -/
theorem runOp_stored (L : StoreLaw rt s) (hk : SaveFailKeeps L) (op : Op) (w : σ)
    (id : String) :
    L.stored (runOp rt s op w) id = L.stored w id ∨
    ∃ o, L.stored w id = some o ∧ o.Status = Order_status_Pending ∧
      ((∃ t, L.stored (runOp rt s op w) id
          = some { o with Status := Order_status_Paid, PayTime := some t }) ∨
        L.stored (runOp rt s op w) id = some { o with Status := Order_status_Canceled }) := by
  cases op with
  | confirmPay k =>
    rcases ConfirmPay_stored_cases rt s L hk k w with h | ⟨o, t, hst, hp, h⟩
    · left
      simp only [runOp, h]
    · by_cases hid : id = k
      · subst hid
        right
        exact ⟨o, hst, hp, Or.inl ⟨t, by simp only [runOp, h, Function.update_same]⟩⟩
      · left
        simp only [runOp, h, Function.update_noteq hid]
  | cancelOrder k =>
    rcases CancelOrder_stored_cases rt s L hk k w with h | ⟨o, hst, hp, h⟩
    · left
      simp only [runOp, h]
    · by_cases hid : id = k
      · subst hid
        right
        exact ⟨o, hst, hp, Or.inr (by simp only [runOp, h, Function.update_same])⟩
      · left
        simp only [runOp, h, Function.update_noteq hid]

/-- An order that is not Pending is stored unchanged after any history. -/
theorem terminal_stays (L : StoreLaw rt s) (hk : SaveFailKeeps L) (id : String) (o : OrderAR)
    (hne : o.Status ≠ Order_status_Pending) (ops : List Op) (w : σ)
    (hst : L.stored w id = some o) :
    ∀ w1 ∈ worldsAfter rt s ops w, L.stored w1 id = some o := by
  induction ops generalizing w with
  | nil =>
    intro w1 h1
    simp only [worldsAfter, List.mem_singleton] at h1
    rw [h1]; exact hst
  | cons op ops ih =>
    intro w1 h1
    simp only [worldsAfter, List.mem_cons] at h1
    rcases h1 with h1 | h1
    · rw [h1]; exact hst
    · have hnext : L.stored (runOp rt s op w) id = some o := by
        rcases runOp_stored rt s L hk op w id with h | ⟨o2, h2, hp, _⟩
        · rw [h, hst]
        · rw [hst] at h2
          cases h2
          exact absurd hp hne
      exact ih (runOp rt s op w) hnext w1 h1

/-- The last world a history passes through is the world it leaves. -/
theorem runOps_mem_worldsAfter (ops : List Op) (w : σ) :
    runOps rt s ops w ∈ worldsAfter rt s ops w := by
  induction ops generalizing w with
  | nil => simp [runOps, worldsAfter]
  | cons op ops ih =>
    simp only [runOps, worldsAfter, List.mem_cons]
    exact Or.inr (ih _)

/-- Every run of `ConfirmPay` has one of four shapes, told apart by what the ports answer. -/
theorem ConfirmPay_shape (orderID : String) (w : σ) :
    (ConfirmPay rt s orderID w).calls = [.FindByID orderID] ∨
    ∃ o, (s.orderRepo.FindByID orderID w).1 = (some o, none) ∧
      o.Status = Order_status_Pending ∧
      ((∃ e, (s.inv.Confirm o.ItemID o.FreezeID (s.orderRepo.FindByID orderID w).2).1 = some e ∧
          (ConfirmPay rt s orderID w).calls =
            [.FindByID orderID, .Confirm o.ItemID o.FreezeID]) ∨
       ((s.inv.Confirm o.ItemID o.FreezeID (s.orderRepo.FindByID orderID w).2).1 = none ∧
          ∃ t, (ConfirmPay rt s orderID w).calls =
            [.FindByID orderID, .Confirm o.ItemID o.FreezeID,
              .Save { o with Status := Order_status_Paid, PayTime := some t }])) := by
  rcases hfr : (s.orderRepo.FindByID orderID w).1 with ⟨p, e⟩
  cases e with
  | some e => left; rw [ConfirmPay_find_err rt s orderID w p e hfr]
  | none =>
    cases p with
    | none => left; rw [ConfirmPay_panic rt s orderID w hfr]
    | some o =>
      by_cases hp : o.Status = Order_status_Pending
      · right
        refine ⟨o, rfl, hp, ?_⟩
        rcases hcr : s.inv.Confirm o.ItemID o.FreezeID (s.orderRepo.FindByID orderID w).2
          with ⟨ce, w2⟩
        cases ce with
        | some e =>
          left
          refine ⟨e, rfl, ?_⟩
          rw [ConfirmPay_confirm_err rt s orderID w o e hfr hp (by rw [hcr])]
        | none =>
          right
          refine ⟨rfl, (rt.timeNow w2).1, ?_⟩
          rw [ConfirmPay_confirm_ok rt s orderID w _ w2 (rt.timeNow w2).2 o (rt.timeNow w2).1
            (Prod.ext hfr rfl) hp hcr rfl]
      · left
        rw [ConfirmPay_not_pending rt s orderID w o hfr hp]

/-- Every run of `CancelOrder` has one of four shapes as well. -/
theorem CancelOrder_shape (orderID : String) (w : σ) :
    (CancelOrder s orderID w).calls = [.FindByID orderID] ∨
    ∃ o, (s.orderRepo.FindByID orderID w).1 = (some o, none) ∧
      o.Status = Order_status_Pending ∧
      ((∃ e, (s.inv.Release o.ItemID o.FreezeID (s.orderRepo.FindByID orderID w).2).1 = some e ∧
          (CancelOrder s orderID w).calls =
            [.FindByID orderID, .Release o.ItemID o.FreezeID]) ∨
       ((s.inv.Release o.ItemID o.FreezeID (s.orderRepo.FindByID orderID w).2).1 = none ∧
          (CancelOrder s orderID w).calls =
            [.FindByID orderID, .Release o.ItemID o.FreezeID,
              .Save { o with Status := Order_status_Canceled }])) := by
  rcases hfr : (s.orderRepo.FindByID orderID w).1 with ⟨p, e⟩
  cases e with
  | some e => left; rw [CancelOrder_find_err s orderID w p e hfr]
  | none =>
    cases p with
    | none => left; rw [CancelOrder_panic s orderID w hfr]
    | some o =>
      by_cases hp : o.Status = Order_status_Pending
      · right
        refine ⟨o, rfl, hp, ?_⟩
        rcases hcr : s.inv.Release o.ItemID o.FreezeID (s.orderRepo.FindByID orderID w).2
          with ⟨ce, w2⟩
        cases ce with
        | some e =>
          left
          refine ⟨e, rfl, ?_⟩
          rw [CancelOrder_release_err s orderID w _ w2 o e (Prod.ext hfr rfl) hp hcr]
        | none =>
          right
          refine ⟨rfl, ?_⟩
          rw [CancelOrder_release_ok s orderID w _ w2 o (Prod.ext hfr rfl) hp hcr]
      · left
        rw [CancelOrder_not_pending s orderID w o hfr hp]

/-- An order `CreateOrder` returned is the Pending order built from the arguments, without a
payment timestamp, and it is stored under its id in the world `CreateOrder` left. -/
theorem CreateOrder_created (L : StoreLaw rt s) (userID itemID : Int) (freezeID : String)
    (price : Int) (w : σ) (order : OrderAR)
    (hc : (CreateOrder rt s userID itemID freezeID price w).out = .returned (some order, none)) :
    order.Status = Order_status_Pending ∧ order.PayTime = none ∧
    order.ItemID = itemID ∧ order.FreezeID = freezeID ∧
    L.stored (CreateOrder rt s userID itemID freezeID price w).world order.ID = some order := by
  simp only [CreateOrder] at hc ⊢
  split at hc
  · simp at hc
  · rename_i hsave
    simp only [Outcome.returned.injEq, Prod.mk.injEq, Option.some.injEq, and_true] at hc
    subst hc
    refine ⟨rfl, rfl, rfl, rfl, ?_⟩
    show L.stored (s.orderRepo.Save _ _).2 _ = _
    rw [L.save_ok _ _ hsave]
    exact Function.update_same _ _ _

/-- A stored Pending order stays within its lifecycle in every world a history passes. -/
theorem lifecycle_stays (L : StoreLaw rt s) (hk : SaveFailKeeps L) (id : String)
    (o : OrderAR) (hp : o.Status = Order_status_Pending) (ops : List Op) (w : σ)
    (hin : InLifecycle o (L.stored w id)) :
    ∀ w1 ∈ worldsAfter rt s ops w, InLifecycle o (L.stored w1 id) := by
  induction ops generalizing w with
  | nil =>
    intro w1 h1
    simp only [worldsAfter, List.mem_singleton] at h1
    rw [h1]; exact hin
  | cons op ops ih =>
    intro w1 h1
    simp only [worldsAfter, List.mem_cons] at h1
    rcases h1 with h1 | h1
    · rw [h1]; exact hin
    · refine ih (runOp rt s op w) ?_ w1 h1
      rcases runOp_stored rt s L hk op w id with h | ⟨o2, h2, hp2, hmove⟩
      · rw [h]; exact hin
      · have ho : o2 = o := by
          rcases hin with h | ⟨t, h⟩ | h
          · rw [h] at h2; exact (Option.some.inj h2).symm
          · rw [h] at h2
            have h3 := Option.some.inj h2
            rw [← h3] at hp2
            exact absurd hp2 paid_ne_pending
          · rw [h] at h2
            have h3 := Option.some.inj h2
            rw [← h3] at hp2
            exact absurd hp2 canceled_ne_pending
        subst ho
        rcases hmove with ⟨t, h⟩ | h
        · exact Or.inr (Or.inl ⟨t, h⟩)
        · exact Or.inr (Or.inr h)

/-- On a Pending order `ConfirmPay` always goes on to call `Confirm`. -/
theorem ConfirmPay_pending_calls (orderID : String) (w : σ) (o : OrderAR)
    (hf : (s.orderRepo.FindByID orderID w).1 = (some o, none))
    (hp : o.Status = Order_status_Pending) :
    ∃ rest, (ConfirmPay rt s orderID w).calls
      = [.FindByID orderID, .Confirm o.ItemID o.FreezeID] ++ rest := by
  rcases ConfirmPay_shape rt s orderID w with h | ⟨o2, hf2, _, ⟨e, _, h⟩ | ⟨_, t, h⟩⟩
  · rw [ConfirmPay] at h
    simp only [hf, hp, ne_eq, not_true_eq_false, if_false] at h
    split at h <;> simp at h
  · rw [hf] at hf2
    cases hf2
    exact ⟨[], by rw [h]; rfl⟩
  · rw [hf] at hf2
    cases hf2
    exact ⟨[_], by rw [h]; rfl⟩

/-- On a Pending order `CancelOrder` always goes on to call `Release`. -/
theorem CancelOrder_pending_calls (orderID : String) (w : σ) (o : OrderAR)
    (hf : (s.orderRepo.FindByID orderID w).1 = (some o, none))
    (hp : o.Status = Order_status_Pending) :
    ∃ rest, (CancelOrder s orderID w).calls
      = [.FindByID orderID, .Release o.ItemID o.FreezeID] ++ rest := by
  rcases CancelOrder_shape s orderID w with h | ⟨o2, hf2, _, ⟨e, _, h⟩ | ⟨_, h⟩⟩
  · rw [CancelOrder] at h
    simp only [hf, hp, ne_eq, not_true_eq_false, if_false] at h
    split at h <;> simp at h
  · rw [hf] at hf2
    cases hf2
    exact ⟨[], by rw [h]; rfl⟩
  · rw [hf] at hf2
    cases hf2
    exact ⟨[_], by rw [h]; rfl⟩

theorem worldsAfter_head (ops : List Op) (w : σ) :
    ∃ tl, worldsAfter rt s ops w = w :: tl := by
  cases ops with
  | nil => exact ⟨[], rfl⟩
  | cons op ops => exact ⟨worldsAfter rt s ops (runOp rt s op w), rfl⟩

/-- A list whose entries are all the same has no change. -/
theorem changes_const {α : Type} [DecidableEq α] (a : α) (l : List α)
    (h : ∀ x ∈ l, x = a) : changes l = 0 := by
  induction l with
  | nil => rfl
  | cons x l ih =>
    cases l with
    | nil => rfl
    | cons y l =>
      have hx : x = a := h x (by simp)
      have hy : y = a := h y (by simp)
      have ih2 := ih (fun z hz => h z (List.mem_cons_of_mem _ hz))
      simp only [changes, hx, hy, if_true, zero_add] at ih2 ⊢
      exact ih2

/-- From a terminal order on, the stored status never changes along a history. -/
theorem changes_terminal (L : StoreLaw rt s) (hk : SaveFailKeeps L) (id : String)
    (o : OrderAR) (hne : o.Status ≠ Order_status_Pending) (ops : List Op) (w : σ)
    (hst : L.stored w id = some o) :
    changes ((worldsAfter rt s ops w).map (statusAt L id)) = 0 := by
  apply changes_const (some o.Status)
  intro x hx
  simp only [List.mem_map] at hx
  obtain ⟨w1, h1, rfl⟩ := hx
  simp only [statusAt, terminal_stays rt s L hk id o hne ops w hst w1 h1, Option.map_some']

/-- The stored status under an id changes at most once along a history. -/
theorem changes_le_one (L : StoreLaw rt s) (hk : SaveFailKeeps L) (id : String)
    (ops : List Op) (w : σ) :
    changes ((worldsAfter rt s ops w).map (statusAt L id)) ≤ 1 := by
  induction ops generalizing w with
  | nil => simp [worldsAfter, changes]
  | cons op ops ih =>
    obtain ⟨tl, htl⟩ := worldsAfter_head rt s ops (runOp rt s op w)
    have hsplit : changes ((worldsAfter rt s (op :: ops) w).map (statusAt L id))
        = (if statusAt L id w = statusAt L id (runOp rt s op w) then 0 else 1)
          + changes ((worldsAfter rt s ops (runOp rt s op w)).map (statusAt L id)) := by
      simp only [worldsAfter, htl, List.map_cons, changes]
    rw [hsplit]
    rcases runOp_stored rt s L hk op w id with h | ⟨o2, h2, _, hmove⟩
    · have hsame : statusAt L id w = statusAt L id (runOp rt s op w) := by
        simp only [statusAt, h]
      rw [if_pos hsame, zero_add]
      exact ih (runOp rt s op w)
    · have hzero : changes ((worldsAfter rt s ops (runOp rt s op w)).map (statusAt L id))
          = 0 := by
        rcases hmove with ⟨t, h⟩ | h
        · exact changes_terminal rt s L hk id _ paid_ne_pending ops _ h
        · exact changes_terminal rt s L hk id _ canceled_ne_pending ops _ h
      rw [hzero]
      split <;> simp

/-- Every change of the stored status along a history is one the state machine allows. -/
theorem moves_allowed (L : StoreLaw rt s) (hk : SaveFailKeeps L) (id : String)
    (ops : List Op) (w : σ) :
    List.Chain' AllowedMove ((worldsAfter rt s ops w).map (statusAt L id)) := by
  induction ops generalizing w with
  | nil => simp [worldsAfter]
  | cons op ops ih =>
    obtain ⟨tl, htl⟩ := worldsAfter_head rt s ops (runOp rt s op w)
    have ih2 := ih (runOp rt s op w)
    simp only [worldsAfter, htl, List.map_cons] at ih2 ⊢
    refine List.Chain'.cons ?_ ih2
    rcases runOp_stored rt s L hk op w id with h | ⟨o2, h2, hp2, hmove⟩
    · left
      simp only [statusAt, h]
    · right
      refine ⟨by simp only [statusAt, h2, Option.map_some', hp2], ?_⟩
      rcases hmove with ⟨t, h⟩ | h
      · left
        simp only [statusAt, h, Option.map_some']
      · right
        simp only [statusAt, h, Option.map_some']

/-- What `ConfirmPay` does to the store and to the inventory log of a recorded environment:
no inventory call; or, on a stored Pending order, a failed `Confirm`; or a successful
`Confirm` followed by a failed `Save`; or a successful `Confirm` followed by a successful
`Save` of the Paid order. -/
theorem ConfirmPay_logged_cases (L : StoreLaw rt s) (hk : SaveFailKeeps L)
    (orderID : String) (w : σ) (log : List Event) :
    (L.stored (ConfirmPay (logRuntime rt) (logService s) orderID (w, log)).world.1
        = L.stored w ∧
      (ConfirmPay (logRuntime rt) (logService s) orderID (w, log)).world.2 = log) ∨
    ∃ o, L.stored w orderID = some o ∧ o.Status = Order_status_Pending ∧
      ((∃ e, L.stored (ConfirmPay (logRuntime rt) (logService s) orderID (w, log)).world.1
            = L.stored w ∧
          (ConfirmPay (logRuntime rt) (logService s) orderID (w, log)).world.2
            = log ++ [.confirm o.ItemID o.FreezeID (some e)]) ∨
       (∃ o1 w3 e, (s.orderRepo.Save o1 w3).1 = some e ∧
          L.stored (ConfirmPay (logRuntime rt) (logService s) orderID (w, log)).world.1
            = L.stored w ∧
          (ConfirmPay (logRuntime rt) (logService s) orderID (w, log)).world.2
            = log ++ [.confirm o.ItemID o.FreezeID none]) ∨
       (∃ t, L.stored (ConfirmPay (logRuntime rt) (logService s) orderID (w, log)).world.1
            = Function.update (L.stored w) orderID
                (some { o with Status := Order_status_Paid, PayTime := some t }) ∧
          (ConfirmPay (logRuntime rt) (logService s) orderID (w, log)).world.2
            = log ++ [.confirm o.ItemID o.FreezeID none])) := by
  rcases hfr : (s.orderRepo.FindByID orderID w).1 with ⟨p, e⟩
  cases e with
  | some e =>
    left
    rw [ConfirmPay_find_err (logRuntime rt) (logService s) orderID (w, log) p e hfr]
    exact ⟨L.find_frame w orderID, rfl⟩
  | none =>
    cases p with
    | none =>
      left
      rw [ConfirmPay_panic (logRuntime rt) (logService s) orderID (w, log) hfr]
      exact ⟨L.find_frame w orderID, rfl⟩
    | some o =>
      have hst : L.stored w orderID = some o := (L.find_iff w orderID o).1 hfr
      by_cases hp : o.Status = Order_status_Pending
      · right
        refine ⟨o, hst, hp, ?_⟩
        rcases hcr : s.inv.Confirm o.ItemID o.FreezeID (s.orderRepo.FindByID orderID w).2
          with ⟨ce, w2⟩
        have hw2 : L.stored w2 = L.stored w := by
          rw [L.stored_confirm rt s _ w2 _ _ _ hcr, L.find_frame]
        have hcl : (logService s).inv.Confirm o.ItemID o.FreezeID
            ((logService s).orderRepo.FindByID orderID (w, log)).2
            = (ce, (w2, log ++ [.confirm o.ItemID o.FreezeID ce])) := by
          show ((s.inv.Confirm o.ItemID o.FreezeID (s.orderRepo.FindByID orderID w).2).1,
            ((s.inv.Confirm o.ItemID o.FreezeID (s.orderRepo.FindByID orderID w).2).2,
              log ++ [Event.confirm o.ItemID o.FreezeID
                (s.inv.Confirm o.ItemID o.FreezeID (s.orderRepo.FindByID orderID w).2).1])) = _
          rw [hcr]
        cases ce with
        | some e =>
          left
          refine ⟨e, ?_⟩
          rw [ConfirmPay_confirm_err (logRuntime rt) (logService s) orderID (w, log) o e hfr hp
            (by rw [hcl]), hcl]
          exact ⟨hw2, rfl⟩
        | none =>
          right
          rw [ConfirmPay_confirm_ok (logRuntime rt) (logService s) orderID (w, log) _ _
            ((rt.timeNow w2).2, log ++ [Event.confirm o.ItemID o.FreezeID none]) o
            (rt.timeNow w2).1 (Prod.ext hfr rfl) hp hcl rfl]
          have hw3 : L.stored (rt.timeNow w2).2 = L.stored w := by
            rw [L.now_frame, hw2]
          cases hsr : (s.orderRepo.Save
            { o with Status := Order_status_Paid, PayTime := some (rt.timeNow w2).1 }
            (rt.timeNow w2).2).1 with
          | some e =>
            left
            refine ⟨_, _, e, hsr, ?_, rfl⟩
            show L.stored (s.orderRepo.Save _ (rt.timeNow w2).2).2 = L.stored w
            rw [hk _ _ e hsr, hw3]
          | none =>
            right
            refine ⟨(rt.timeNow w2).1, ?_, rfl⟩
            show L.stored (s.orderRepo.Save _ (rt.timeNow w2).2).2 = _
            rw [L.save_ok _ _ hsr, hw3]
            have hid : o.ID = orderID := L.keyed w orderID o hst
            simp only [hid]
      · left
        rw [ConfirmPay_not_pending (logRuntime rt) (logService s) orderID (w, log) o hfr hp]
        exact ⟨L.find_frame w orderID, rfl⟩

/-- What `CancelOrder` does to the store and to the inventory log of a recorded environment;
the cases are those of `ConfirmPay_logged_cases` with `Release` and Canceled. -/
theorem CancelOrder_logged_cases (L : StoreLaw rt s) (hk : SaveFailKeeps L)
    (orderID : String) (w : σ) (log : List Event) :
    (L.stored (CancelOrder (logService s) orderID (w, log)).world.1 = L.stored w ∧
      (CancelOrder (logService s) orderID (w, log)).world.2 = log) ∨
    ∃ o, L.stored w orderID = some o ∧ o.Status = Order_status_Pending ∧
      ((∃ e, L.stored (CancelOrder (logService s) orderID (w, log)).world.1 = L.stored w ∧
          (CancelOrder (logService s) orderID (w, log)).world.2
            = log ++ [.release o.ItemID o.FreezeID (some e)]) ∨
       (∃ o1 w3 e, (s.orderRepo.Save o1 w3).1 = some e ∧
          L.stored (CancelOrder (logService s) orderID (w, log)).world.1 = L.stored w ∧
          (CancelOrder (logService s) orderID (w, log)).world.2
            = log ++ [.release o.ItemID o.FreezeID none]) ∨
       (L.stored (CancelOrder (logService s) orderID (w, log)).world.1
            = Function.update (L.stored w) orderID
                (some { o with Status := Order_status_Canceled }) ∧
          (CancelOrder (logService s) orderID (w, log)).world.2
            = log ++ [.release o.ItemID o.FreezeID none])) := by
  rcases hfr : (s.orderRepo.FindByID orderID w).1 with ⟨p, e⟩
  cases e with
  | some e =>
    left
    rw [CancelOrder_find_err (logService s) orderID (w, log) p e hfr]
    exact ⟨L.find_frame w orderID, rfl⟩
  | none =>
    cases p with
    | none =>
      left
      rw [CancelOrder_panic (logService s) orderID (w, log) hfr]
      exact ⟨L.find_frame w orderID, rfl⟩
    | some o =>
      have hst : L.stored w orderID = some o := (L.find_iff w orderID o).1 hfr
      by_cases hp : o.Status = Order_status_Pending
      · right
        refine ⟨o, hst, hp, ?_⟩
        rcases hcr : s.inv.Release o.ItemID o.FreezeID (s.orderRepo.FindByID orderID w).2
          with ⟨ce, w2⟩
        have hw2 : L.stored w2 = L.stored w := by
          rw [L.stored_release rt s _ w2 _ _ _ hcr, L.find_frame]
        have hcl : (logService s).inv.Release o.ItemID o.FreezeID
            ((logService s).orderRepo.FindByID orderID (w, log)).2
            = (ce, (w2, log ++ [.release o.ItemID o.FreezeID ce])) := by
          show ((s.inv.Release o.ItemID o.FreezeID (s.orderRepo.FindByID orderID w).2).1,
            ((s.inv.Release o.ItemID o.FreezeID (s.orderRepo.FindByID orderID w).2).2,
              log ++ [Event.release o.ItemID o.FreezeID
                (s.inv.Release o.ItemID o.FreezeID (s.orderRepo.FindByID orderID w).2).1])) = _
          rw [hcr]
        cases ce with
        | some e =>
          left
          refine ⟨e, ?_⟩
          rw [CancelOrder_release_err (logService s) orderID (w, log) _ _ o e
            (Prod.ext hfr rfl) hp hcl]
          exact ⟨hw2, rfl⟩
        | none =>
          right
          rw [CancelOrder_release_ok (logService s) orderID (w, log) _ _ o
            (Prod.ext hfr rfl) hp hcl]
          cases hsr : (s.orderRepo.Save { o with Status := Order_status_Canceled } w2).1 with
          | some e =>
            left
            refine ⟨_, _, e, hsr, ?_, rfl⟩
            show L.stored (s.orderRepo.Save _ w2).2 = L.stored w
            rw [hk _ _ e hsr, hw2]
          | none =>
            right
            refine ⟨?_, rfl⟩
            show L.stored (s.orderRepo.Save _ w2).2 = _
            rw [L.save_ok _ _ hsr, hw2]
            have hid : o.ID = orderID := L.keyed w orderID o hst
            simp only [hid]
      · left
        rw [CancelOrder_not_pending (logService s) orderID (w, log) o hfr hp]
        exact ⟨L.find_frame w orderID, rfl⟩

/-- When `Save` never fails, a failed `Save` trivially saves nothing. -/
theorem saveFailKeeps_of_never_fails (L : StoreLaw rt s)
    (hsave : ∀ w o, (s.orderRepo.Save o w).1 = none) : SaveFailKeeps L := by
  intro w o e h
  rw [hsave w o] at h
  cases h

/-- With a `Save` that never fails, the calls of a history on one order id leave at most one
successful inventory call in the log, and none while the order is still Pending. -/
theorem inventory_successes (L : StoreLaw rt s)
    (hsave : ∀ w o, (s.orderRepo.Save o w).1 = none) (id : String) (ops : List Op)
    (hone : ∀ op ∈ ops, op = .confirmPay id ∨ op = .cancelOrder id) (x : σ × List Event)
    (hlen : (x.2.filter Event.succeeded).length ≤ 1)
    (hpend : ∀ o, L.stored x.1 id = some o → o.Status = Order_status_Pending →
      x.2.filter Event.succeeded = []) :
    ((runOps (logRuntime rt) (logService s) ops x).2.filter Event.succeeded).length ≤ 1 := by
  have hk := saveFailKeeps_of_never_fails rt s L hsave
  induction ops generalizing x with
  | nil => exact hlen
  | cons op ops ih =>
    obtain ⟨w, log⟩ := x
    have hone2 : ∀ op2 ∈ ops, op2 = .confirmPay id ∨ op2 = .cancelOrder id :=
      fun op2 h2 => hone op2 (List.mem_cons_of_mem _ h2)
    simp only [runOps]
    apply ih hone2
    · rcases hone op (List.mem_cons_self _ _) with hop | hop
      · subst hop
        simp only [runOp]
        rcases ConfirmPay_logged_cases rt s L hk id w log with
          ⟨_, h2⟩ | ⟨o, hst, hp, ⟨e, _, h2⟩ | ⟨o1, w3, e, hf, _, _⟩ | ⟨t, _, h2⟩⟩
        · rw [h2]; exact hlen
        · rw [h2]
          simpa [Event.succeeded] using hlen
        · rw [hsave] at hf; cases hf
        · rw [h2]
          have h0 := hpend o hst hp
          simp only at h0
          simp [Event.succeeded, h0]
      · subst hop
        simp only [runOp]
        rcases CancelOrder_logged_cases rt s L hk id w log with
          ⟨_, h2⟩ | ⟨o, hst, hp, ⟨e, _, h2⟩ | ⟨o1, w3, e, hf, _, _⟩ | ⟨_, h2⟩⟩
        · rw [h2]; exact hlen
        · rw [h2]
          simpa [Event.succeeded] using hlen
        · rw [hsave] at hf; cases hf
        · rw [h2]
          have h0 := hpend o hst hp
          simp only at h0
          simp [Event.succeeded, h0]
    · intro o2 hst2 hp2
      rcases hone op (List.mem_cons_self _ _) with hop | hop
      · subst hop
        simp only [runOp] at hst2 ⊢
        rcases ConfirmPay_logged_cases rt s L hk id w log with
          ⟨h1, h2⟩ | ⟨o, hst, hp, ⟨e, h1, h2⟩ | ⟨o1, w3, e, hf, _, _⟩ | ⟨t, h1, _⟩⟩
        · rw [h1] at hst2
          rw [h2]
          exact hpend o2 hst2 hp2
        · rw [h1] at hst2
          rw [h2]
          have h0 := hpend o2 hst2 hp2
          simp only at h0
          simp [Event.succeeded, h0]
        · rw [hsave] at hf; cases hf
        · rw [h1, Function.update_same] at hst2
          cases hst2
          exact absurd hp2 paid_ne_pending
      · subst hop
        simp only [runOp] at hst2 ⊢
        rcases CancelOrder_logged_cases rt s L hk id w log with
          ⟨h1, h2⟩ | ⟨o, hst, hp, ⟨e, h1, h2⟩ | ⟨o1, w3, e, hf, _, _⟩ | ⟨h1, _⟩⟩
        · rw [h1] at hst2
          rw [h2]
          exact hpend o2 hst2 hp2
        · rw [h1] at hst2
          rw [h2]
          have h0 := hpend o2 hst2 hp2
          simp only at h0
          simp [Event.succeeded, h0]
        · rw [hsave] at hf; cases hf
        · rw [h1, Function.update_same] at hst2
          cases hst2
          exact absurd hp2 canceled_ne_pending

/-- Two events of a list with at most one entry are the same event. -/
theorem eq_of_length_le_one {α : Type} (l : List α) (h : l.length ≤ 1) (a b : α)
    (ha : a ∈ l) (hb : b ∈ l) : a = b := by
  match l, h with
  | [], _ => cases ha
  | [c], _ =>
    simp only [List.mem_singleton] at ha hb
    rw [ha, hb]

/-- One call keeps the stored version of a Pending `order` backed by the log. -/
theorem backed_step (L : StoreLaw rt s) (hk : SaveFailKeeps L) (order : OrderAR)
    (hp : order.Status = Order_status_Pending) (op : Op) (x : σ × List Event)
    (hb : Backed L order x) :
    Backed L order (runOp (logRuntime rt) (logService s) op x) := by
  obtain ⟨w, log⟩ := x
  -- a world with the same stored orders and a longer log is backed as well
  have keep : ∀ (y : σ × List Event), L.stored y.1 = L.stored w →
      (∀ ev, ev ∈ log → ev ∈ y.2) → Backed L order y := by
    intro y hy hsub
    rcases hb with h | ⟨t, h, hm⟩ | ⟨h, hm⟩
    · exact Or.inl (by rw [hy]; exact h)
    · exact Or.inr (Or.inl ⟨t, by rw [hy]; exact h, hsub _ hm⟩)
    · exact Or.inr (Or.inr ⟨by rw [hy]; exact h, hsub _ hm⟩)
  -- a Pending order stored under the order's id is the order itself
  have same : ∀ o, L.stored w order.ID = some o → o.Status = Order_status_Pending →
      o = order := by
    intro o ho hpo
    rcases hb with h | ⟨t, h, _⟩ | ⟨h, _⟩
    · simp only at h
      rw [h] at ho
      exact (Option.some.inj ho).symm
    · simp only at h
      rw [h] at ho
      rw [← Option.some.inj ho] at hpo
      exact absurd hpo paid_ne_pending
    · simp only at h
      rw [h] at ho
      rw [← Option.some.inj ho] at hpo
      exact absurd hpo canceled_ne_pending
  cases op with
  | confirmPay k =>
    simp only [runOp]
    rcases ConfirmPay_logged_cases rt s L hk k w log with
      ⟨h1, h2⟩ | ⟨o, hst, hpo, ⟨e, h1, h2⟩ | ⟨o1, w3, e, _, h1, h2⟩ | ⟨t, h1, h2⟩⟩
    · exact keep _ h1 (fun ev hev => by rw [h2]; exact hev)
    · exact keep _ h1 (fun ev hev => by rw [h2]; exact List.mem_append_left _ hev)
    · exact keep _ h1 (fun ev hev => by rw [h2]; exact List.mem_append_left _ hev)
    · by_cases hid : order.ID = k
      · subst hid
        have ho := same o hst hpo
        subst ho
        refine Or.inr (Or.inl ⟨t, ?_, ?_⟩)
        · rw [h1, Function.update_same]
        · rw [h2]
          exact List.mem_append_right _ (List.mem_singleton_self _)
      · rcases hb with h | ⟨t2, h, hm⟩ | ⟨h, hm⟩
        · exact Or.inl (by rw [h1, Function.update_noteq hid]; exact h)
        · exact Or.inr (Or.inl ⟨t2, by rw [h1, Function.update_noteq hid]; exact h,
            by rw [h2]; exact List.mem_append_left _ hm⟩)
        · exact Or.inr (Or.inr ⟨by rw [h1, Function.update_noteq hid]; exact h,
            by rw [h2]; exact List.mem_append_left _ hm⟩)
  | cancelOrder k =>
    simp only [runOp]
    rcases CancelOrder_logged_cases rt s L hk k w log with
      ⟨h1, h2⟩ | ⟨o, hst, hpo, ⟨e, h1, h2⟩ | ⟨o1, w3, e, _, h1, h2⟩ | ⟨h1, h2⟩⟩
    · exact keep _ h1 (fun ev hev => by rw [h2]; exact hev)
    · exact keep _ h1 (fun ev hev => by rw [h2]; exact List.mem_append_left _ hev)
    · exact keep _ h1 (fun ev hev => by rw [h2]; exact List.mem_append_left _ hev)
    · by_cases hid : order.ID = k
      · subst hid
        have ho := same o hst hpo
        subst ho
        refine Or.inr (Or.inr ⟨?_, ?_⟩)
        · rw [h1, Function.update_same]
        · rw [h2]
          exact List.mem_append_right _ (List.mem_singleton_self _)
      · rcases hb with h | ⟨t2, h, hm⟩ | ⟨h, hm⟩
        · exact Or.inl (by rw [h1, Function.update_noteq hid]; exact h)
        · exact Or.inr (Or.inl ⟨t2, by rw [h1, Function.update_noteq hid]; exact h,
            by rw [h2]; exact List.mem_append_left _ hm⟩)
        · exact Or.inr (Or.inr ⟨by rw [h1, Function.update_noteq hid]; exact h,
            by rw [h2]; exact List.mem_append_left _ hm⟩)

/-- A history keeps the stored version of a Pending `order` backed by the log. -/
theorem backed_stays (L : StoreLaw rt s) (hk : SaveFailKeeps L) (order : OrderAR)
    (hp : order.Status = Order_status_Pending) (ops : List Op) (x : σ × List Event)
    (hb : Backed L order x) :
    Backed L order (runOps (logRuntime rt) (logService s) ops x) := by
  induction ops generalizing x with
  | nil => exact hb
  | cons op ops ih => exact ih _ (backed_step rt s L hk order hp op x hb)

/-- The three steps of one invocation, run without interruption, are `ConfirmPay`: same
outcome, same final world, same port calls. -/
theorem steps_refine_ConfirmPay (orderID : String) (w : σ) :
    (interleave rt s orderID [false, false, false] (Conf.init w)).first
      = .finished (ConfirmPay rt s orderID w).out ∧
    (interleave rt s orderID [false, false, false] (Conf.init w)).world
      = (ConfirmPay rt s orderID w).world ∧
    callsOf false (interleave rt s orderID [false, false, false] (Conf.init w)).trace
      = (ConfirmPay rt s orderID w).calls ∧
    (interleave rt s orderID [false, false, false] (Conf.init w)).second = .start ∧
    callsOf true (interleave rt s orderID [false, false, false] (Conf.init w)).trace
      = [] := by
  rcases hfr : (s.orderRepo.FindByID orderID w).1 with ⟨p, e⟩
  cases e with
  | some e =>
    rw [ConfirmPay_find_err rt s orderID w p e hfr]
    simp [interleave, Conf.step, Conf.init, confirmPayStep, hfr, callsOf]
  | none =>
    cases p with
    | none =>
      rw [ConfirmPay_panic rt s orderID w hfr]
      simp [interleave, Conf.step, Conf.init, confirmPayStep, hfr, callsOf]
    | some o =>
      by_cases hp : o.Status = Order_status_Pending
      · rcases hcr : s.inv.Confirm o.ItemID o.FreezeID (s.orderRepo.FindByID orderID w).2
          with ⟨ce, w2⟩
        cases ce with
        | some e =>
          rw [ConfirmPay_confirm_err rt s orderID w o e hfr hp (by rw [hcr])]
          simp [interleave, Conf.step, Conf.init, confirmPayStep, hfr, hp, hcr, callsOf]
        | none =>
          rw [ConfirmPay_confirm_ok rt s orderID w _ w2 (rt.timeNow w2).2 o (rt.timeNow w2).1
            (Prod.ext hfr rfl) hp hcr rfl]
          simp [interleave, Conf.step, Conf.init, confirmPayStep, hfr, hp, hcr, callsOf]
      · rw [ConfirmPay_not_pending rt s orderID w o hfr hp]
        simp [interleave, Conf.step, Conf.init, confirmPayStep, hfr, hp, callsOf]

theorem interleave_append (orderID : String) (l1 l2 : List Bool) (c : Conf σ) :
    interleave rt s orderID (l1 ++ l2) c
      = interleave rt s orderID l2 (interleave rt s orderID l1 c) := by
  induction l1 generalizing c with
  | nil => rfl
  | cons who l1 ih => exact ih _

/-- A step of a finished invocation changes nothing. -/
theorem Conf.step_first_finished (orderID : String) (c : Conf σ)
    (out : Outcome (Option Error)) (h : c.first = .finished out) :
    c.step rt s orderID false = c := by
  cases c with
  | mk a b w t =>
    simp only at h
    subst h
    simp [Conf.step, confirmPayStep]

theorem Conf.step_second_finished (orderID : String) (c : Conf σ)
    (out : Outcome (Option Error)) (h : c.second = .finished out) :
    c.step rt s orderID true = c := by
  cases c with
  | mk a b w t =>
    simp only at h
    subst h
    simp [Conf.step, confirmPayStep]

/-- Once the first invocation has finished and the stored order is not Pending, the second
invocation, whenever it is scheduled, only loads the order: it finishes with no error, its
one port call is `FindByID`, and the store and the first invocation's calls stay as they
are. -/
theorem second_noop_after_first (L : StoreLaw rt s) (orderID : String)
    (S : String → Option OrderAR) (o1 : OrderAR) (hS : S orderID = some o1)
    (hne : o1.Status ≠ Order_status_Pending) (out1 : Outcome (Option Error))
    (F : List Call) (rest : List Bool) (c : Conf σ)
    (hfirst : c.first = .finished out1) (hst : L.stored c.world = S)
    (hF : callsOf false c.trace = F)
    (hsec : (c.second = .start ∧ callsOf true c.trace = []) ∨
      (c.second = .finished (.returned none) ∧ callsOf true c.trace = [.FindByID orderID])) :
    (interleave rt s orderID rest c).first = .finished out1 ∧
    L.stored (interleave rt s orderID rest c).world = S ∧
    callsOf false (interleave rt s orderID rest c).trace = F ∧
    (((interleave rt s orderID rest c).second = .start ∧
        callsOf true (interleave rt s orderID rest c).trace = []) ∨
      ((interleave rt s orderID rest c).second = .finished (.returned none) ∧
        callsOf true (interleave rt s orderID rest c).trace = [.FindByID orderID])) := by
  induction rest generalizing c with
  | nil => exact ⟨hfirst, hst, hF, hsec⟩
  | cons who rest ih =>
    simp only [interleave]
    cases who with
    | false =>
      rw [Conf.step_first_finished rt s orderID c out1 hfirst]
      exact ih c hfirst hst hF hsec
    | true =>
      rcases hsec with ⟨h2, ht⟩ | ⟨h2, ht⟩
      · have hfind : (s.orderRepo.FindByID orderID c.world).1 = (some o1, none) :=
          (L.find_iff c.world orderID o1).2 (by rw [hst]; exact hS)
        apply ih
        · simp only [Conf.step]
          exact hfirst
        · simp only [Conf.step, h2, confirmPayStep, hfind, hne, ne_eq, not_false_eq_true,
            if_true]
          rw [L.find_frame]
          exact hst
        · simp only [Conf.step, h2, confirmPayStep, hfind, hne, ne_eq, not_false_eq_true,
            if_true]
          rw [← hF]
          simp [callsOf, List.filter_append]
        · right
          simp only [Conf.step, h2, confirmPayStep, hfind, hne, ne_eq, not_false_eq_true,
            if_true, true_and]
          simp only [callsOf, List.filter_append, List.map_append] at ht ⊢
          rw [ht]
          simp
      · rw [Conf.step_second_finished rt s orderID c _ h2]
        exact ih c hfirst hst hF (Or.inr ⟨h2, ht⟩)

/-- One step of an invocation on a Pending order `o` keeps the stored order Pending or Paid
and keeps the invocation holding `o`, when a failed `Save` saves nothing. -/
theorem confirmPayStep_safe (L : StoreLaw rt s) (hk : SaveFailKeeps L) (o : OrderAR)
    (hp : o.Status = Order_status_Pending) (pc : ConfirmPayPC) (w : σ)
    (hpc : HoldsOrder o pc) (hst : PendingOrPaid o (L.stored w o.ID)) :
    HoldsOrder o (confirmPayStep rt s o.ID pc w).1 ∧
    PendingOrPaid o (L.stored (confirmPayStep rt s o.ID pc w).2.1 o.ID) := by
  rcases hpc with h | h | h | ⟨out, h⟩
  · subst h
    rcases hfr : (s.orderRepo.FindByID o.ID w).1 with ⟨p, e⟩
    have hframe : L.stored (s.orderRepo.FindByID o.ID w).2 = L.stored w := L.find_frame w o.ID
    cases e with
    | some e =>
      simp only [confirmPayStep, hfr, hframe]
      exact ⟨Or.inr (Or.inr (Or.inr ⟨_, rfl⟩)), hst⟩
    | none =>
      cases p with
      | none =>
        simp only [confirmPayStep, hfr, hframe]
        exact ⟨Or.inr (Or.inr (Or.inr ⟨_, rfl⟩)), hst⟩
      | some o2 =>
        have hst2 : L.stored w o.ID = some o2 := (L.find_iff w o.ID o2).1 hfr
        by_cases hp2 : o2.Status = Order_status_Pending
        · have ho : o2 = o := by
            rcases hst with h | ⟨t, h⟩
            · rw [h] at hst2
              exact (Option.some.inj hst2).symm
            · rw [h] at hst2
              rw [← Option.some.inj hst2] at hp2
              exact absurd hp2 paid_ne_pending
          subst ho
          simp only [confirmPayStep, hfr, hp2, ne_eq, not_true_eq_false, if_false, hframe]
          exact ⟨Or.inr (Or.inl rfl), hst⟩
        · simp only [confirmPayStep, hfr, hp2, ne_eq, not_false_eq_true, if_true, hframe]
          exact ⟨Or.inr (Or.inr (Or.inr ⟨_, rfl⟩)), hst⟩
  · subst h
    have hframe : L.stored (s.inv.Confirm o.ItemID o.FreezeID w).2 = L.stored w :=
      L.confirm_frame w _ _
    cases hcr : (s.inv.Confirm o.ItemID o.FreezeID w).1 with
    | some e =>
      simp only [confirmPayStep, hcr, hframe]
      exact ⟨Or.inr (Or.inr (Or.inr ⟨_, rfl⟩)), hst⟩
    | none =>
      simp only [confirmPayStep, hcr, hframe]
      exact ⟨Or.inr (Or.inr (Or.inl rfl)), hst⟩
  · subst h
    refine ⟨Or.inr (Or.inr (Or.inr ⟨_, rfl⟩)), ?_⟩
    simp only [confirmPayStep]
    cases hsr : (s.orderRepo.Save
      { o with Status := Order_status_Paid, PayTime := some (rt.timeNow w).1 }
      (rt.timeNow w).2).1 with
    | some e =>
      rw [hk _ _ e hsr, L.now_frame]
      exact hst
    | none =>
      rw [L.save_ok _ _ hsr]
      exact Or.inr ⟨(rt.timeNow w).1, Function.update_same _ _ _⟩
  · subst h
    simp only [confirmPayStep]
    exact ⟨Or.inr (Or.inr (Or.inr ⟨_, rfl⟩)), hst⟩

/-- In every interleaving of two invocations on a stored Pending order, the stored order
stays that order, Pending or Paid. -/
theorem interleave_store_safe (L : StoreLaw rt s) (hk : SaveFailKeeps L) (o : OrderAR)
    (hp : o.Status = Order_status_Pending) (sched : List Bool) (c : Conf σ)
    (h1 : HoldsOrder o c.first) (h2 : HoldsOrder o c.second)
    (hst : PendingOrPaid o (L.stored c.world o.ID)) :
    PendingOrPaid o (L.stored (interleave rt s o.ID sched c).world o.ID) := by
  induction sched generalizing c with
  | nil => exact hst
  | cons who sched ih =>
    simp only [interleave]
    cases who with
    | false =>
      have hs := confirmPayStep_safe rt s L hk o hp c.first c.world h1 hst
      exact ih _ hs.1 h2 hs.2
    | true =>
      have hs := confirmPayStep_safe rt s L hk o hp c.second c.world h2 hst
      exact ih _ h1 hs.1 hs.2

end Runs

/-- In the in-memory environment a failed `Save` leaves the list of orders as it is. -/
theorem memLaw_saveFailKeeps (sc : Script) : SaveFailKeeps (memLaw sc) := by
  intro w o e h
  simp only [memService, NewOrderService, memRepo] at h ⊢
  cases hs : sc.saveErr w.tick with
  | some e2 => rfl
  | none => simp [hs] at h

/-! ## Properties -/

/-- C1: when the stored order is not Pending, `ConfirmPay` returns no error, its only port
call is the `FindByID` that loaded the order (so no `Confirm`, `Release`, `Save` or
`UpdateStatus`), and the store is exactly as it was. -/
theorem confirmPay_nonPending_noop {σ : Type} (rt : Runtime σ) (s : OrderService σ)
    (L : StoreLaw rt s) (orderID : String) (w : σ) (o : OrderAR)
    (hst : L.stored w orderID = some o) (hne : o.Status ≠ Order_status_Pending) :
    (ConfirmPay rt s orderID w).out = .returned none ∧
    (ConfirmPay rt s orderID w).calls = [.FindByID orderID] ∧
    L.stored (ConfirmPay rt s orderID w).world = L.stored w ∧
    L.stored (ConfirmPay rt s orderID w).world orderID = some o := by
  have hf := (L.find_iff w orderID o).2 hst
  rw [ConfirmPay_not_pending rt s orderID w o hf hne]
  simp only [L.find_frame, hst, and_self]

theorem confirmPay_nonPending_noop_witness :
    (memLaw okScript).stored { orders := [paidOrder], tick := 0 } "o-1" = some paidOrder ∧
    paidOrder.Status ≠ Order_status_Pending ∧
    (ConfirmPay (memRuntime okScript) (memService okScript) "o-1"
      { orders := [paidOrder], tick := 0 }).out = .returned none ∧
    (ConfirmPay (memRuntime okScript) (memService okScript) "o-1"
      { orders := [paidOrder], tick := 0 }).calls = [.FindByID "o-1"] :=
  have h := confirmPay_nonPending_noop (memRuntime okScript) (memService okScript)
    (memLaw okScript) "o-1" { orders := [paidOrder], tick := 0 } paidOrder (by rfl) (by decide)
  ⟨by rfl, by decide, h.1, h.2.1⟩

/-- C2: for a stored Pending order, when `Confirm` and then `Save` succeed, `ConfirmPay`
returns no error; the order passed to `Save`, which is the stored order afterwards, is the
loaded order with status Paid and the payment timestamp set to the time the operation read. -/
theorem confirmPay_pending_success {σ : Type} (rt : Runtime σ) (s : OrderService σ)
    (L : StoreLaw rt s) (orderID : String) (w w1 w2 w3 w4 : σ) (o : OrderAR) (now : Nat)
    (hst : L.stored w orderID = some o) (hp : o.Status = Order_status_Pending)
    (hf : (s.orderRepo.FindByID orderID w).2 = w1)
    (hc : s.inv.Confirm o.ItemID o.FreezeID w1 = (none, w2))
    (hn : rt.timeNow w2 = (now, w3))
    (hs : s.orderRepo.Save { o with Status := Order_status_Paid, PayTime := some now } w3
      = (none, w4)) :
    ConfirmPay rt s orderID w =
      { out := .returned none, world := w4,
        calls := [.FindByID orderID, .Confirm o.ItemID o.FreezeID,
          .Save { o with Status := Order_status_Paid, PayTime := some now }] } ∧
    L.stored w4 orderID = some { o with Status := Order_status_Paid, PayTime := some now } :=
  ConfirmPay_paid rt s L orderID w w1 w2 w3 w4 o now hst hp hf hc hn hs

theorem confirmPay_pending_success_witness :
    ConfirmPay (memRuntime okScript) (memService okScript) "o-1"
        { orders := [pendingOrder], tick := 0 } =
      { out := .returned none,
        world := { orders := [paidAt2, pendingOrder], tick := 4 },
        calls := [.FindByID "o-1", .Confirm 42 "f-1", .Save paidAt2] } ∧
    (memLaw okScript).stored { orders := [paidAt2, pendingOrder], tick := 4 } "o-1"
      = some paidAt2 :=
  confirmPay_pending_success (memRuntime okScript) (memService okScript) (memLaw okScript)
    "o-1" { orders := [pendingOrder], tick := 0 } { orders := [pendingOrder], tick := 1 }
    { orders := [pendingOrder], tick := 2 } { orders := [pendingOrder], tick := 3 }
    { orders := [paidAt2, pendingOrder], tick := 4 } pendingOrder 2
    (by rfl) (by rfl) (by rfl) (by rfl) (by rfl) (by rfl)

/-- C3: idempotence of `ConfirmPay`. For a stored Pending order whose first `ConfirmPay`
has `Confirm` and `Save` succeed, the stored order is Paid after the first call; the second
call, run on the world the first one left, returns no error, only loads the order (no second
`Confirm`, no `Save`) and leaves the store as it is, payment timestamp of the first call
included. -/
theorem confirmPay_twice_idempotent {σ : Type} (rt : Runtime σ) (s : OrderService σ)
    (L : StoreLaw rt s) (orderID : String) (w w1 w2 w3 w4 : σ) (o : OrderAR) (now : Nat)
    (hst : L.stored w orderID = some o) (hp : o.Status = Order_status_Pending)
    (hf : (s.orderRepo.FindByID orderID w).2 = w1)
    (hc : s.inv.Confirm o.ItemID o.FreezeID w1 = (none, w2))
    (hn : rt.timeNow w2 = (now, w3))
    (hs : s.orderRepo.Save { o with Status := Order_status_Paid, PayTime := some now } w3
      = (none, w4)) :
    (ConfirmPay rt s orderID w).out = .returned none ∧
    L.stored (ConfirmPay rt s orderID w).world orderID
      = some { o with Status := Order_status_Paid, PayTime := some now } ∧
    (ConfirmPay rt s orderID (ConfirmPay rt s orderID w).world).out = .returned none ∧
    (ConfirmPay rt s orderID (ConfirmPay rt s orderID w).world).calls = [.FindByID orderID] ∧
    L.stored (ConfirmPay rt s orderID (ConfirmPay rt s orderID w).world).world
      = L.stored (ConfirmPay rt s orderID w).world ∧
    L.stored (ConfirmPay rt s orderID (ConfirmPay rt s orderID w).world).world orderID
      = some { o with Status := Order_status_Paid, PayTime := some now } := by
  obtain ⟨hrun, hst4⟩ := ConfirmPay_paid rt s L orderID w w1 w2 w3 w4 o now hst hp hf hc hn hs
  obtain ⟨h1, h2, h3⟩ := ConfirmPay_noop rt s L orderID w4 _ hst4 paid_ne_pending
  rw [hrun]
  exact ⟨rfl, hst4, h1, h2, h3, by rw [h3]; exact hst4⟩

theorem confirmPay_twice_idempotent_witness :
    (ConfirmPay (memRuntime okScript) (memService okScript) "o-1"
      (ConfirmPay (memRuntime okScript) (memService okScript) "o-1"
        { orders := [pendingOrder], tick := 0 }).world).calls = [.FindByID "o-1"] ∧
    (memLaw okScript).stored
      (ConfirmPay (memRuntime okScript) (memService okScript) "o-1"
        (ConfirmPay (memRuntime okScript) (memService okScript) "o-1"
          { orders := [pendingOrder], tick := 0 }).world).world "o-1" = some paidAt2 :=
  have h := confirmPay_twice_idempotent (memRuntime okScript) (memService okScript)
    (memLaw okScript) "o-1" { orders := [pendingOrder], tick := 0 }
    { orders := [pendingOrder], tick := 1 } { orders := [pendingOrder], tick := 2 }
    { orders := [pendingOrder], tick := 3 } { orders := [paidAt2, pendingOrder], tick := 4 }
    pendingOrder 2 (by rfl) (by rfl) (by rfl) (by rfl) (by rfl) (by rfl)
  ⟨h.2.2.2.1, h.2.2.2.2.2⟩

/-- C4: for a stored Pending order, if `Confirm` fails with `e`, `ConfirmPay` returns exactly
`e`, its port calls are the load and the failed `Confirm` (no `Save`), and the store is
unchanged: the persisted order is the loaded one, still Pending, with the payment timestamp
it had (none when it had none). -/
theorem confirmPay_confirm_fails {σ : Type} (rt : Runtime σ) (s : OrderService σ)
    (L : StoreLaw rt s) (orderID : String) (w w1 w2 : σ) (o : OrderAR) (e : Error)
    (hst : L.stored w orderID = some o) (hp : o.Status = Order_status_Pending)
    (hf : (s.orderRepo.FindByID orderID w).2 = w1)
    (hc : s.inv.Confirm o.ItemID o.FreezeID w1 = (some e, w2)) :
    ConfirmPay rt s orderID w =
      { out := .returned (some e), world := w2,
        calls := [.FindByID orderID, .Confirm o.ItemID o.FreezeID] } ∧
    L.stored w2 = L.stored w ∧
    L.stored w2 orderID = some o ∧
    (L.stored w2 orderID).map OrderAR.Status = some Order_status_Pending ∧
    (L.stored w2 orderID).map OrderAR.PayTime = some o.PayTime ∧
    (o.PayTime = none → (L.stored w2 orderID).map OrderAR.PayTime = some none) := by
  have hfe := L.find_eq rt s orderID w w1 o hst hf
  have hw2 : L.stored w2 = L.stored w := by
    rw [L.stored_confirm rt s w1 w2 _ _ _ hc, ← hf, L.find_frame]
  have h2 : L.stored w2 orderID = some o := by rw [hw2, hst]
  refine ⟨?_, hw2, h2, ?_, ?_, ?_⟩
  · rw [ConfirmPay_confirm_err rt s orderID w o e (by rw [hfe]) hp (by rw [hfe, hc]), hfe, hc]
  · rw [h2, Option.map_some', hp]
  · rw [h2, Option.map_some']
  · intro h
    rw [h2, Option.map_some', h]

theorem confirmPay_confirm_fails_witness :
    ConfirmPay (memRuntime confirmFailScript) (memService confirmFailScript) "o-1"
        { orders := [pendingOrder], tick := 0 } =
      { out := .returned (some ErrFreeze),
        world := { orders := [pendingOrder], tick := 2 },
        calls := [.FindByID "o-1", .Confirm 42 "f-1"] } ∧
    (memLaw confirmFailScript).stored { orders := [pendingOrder], tick := 2 } "o-1"
      = some pendingOrder ∧
    ((memLaw confirmFailScript).stored { orders := [pendingOrder], tick := 2 } "o-1").map
      OrderAR.PayTime = some none :=
  have h := confirmPay_confirm_fails (memRuntime confirmFailScript)
    (memService confirmFailScript) (memLaw confirmFailScript) "o-1"
    { orders := [pendingOrder], tick := 0 } { orders := [pendingOrder], tick := 1 }
    { orders := [pendingOrder], tick := 2 } pendingOrder ErrFreeze
    (by rfl) (by rfl) (by rfl) (by rfl)
  ⟨h.1, h.2.2.1, h.2.2.2.2.2 (by rfl)⟩

/-- C5: for a stored Pending order, (a) when `Release` and then `Save` succeed, `CancelOrder`
returns no error and the order passed to `Save`, stored afterwards, is the loaded order with
status Canceled and every other field, payment timestamp included, as loaded; (b) when
`Release` fails with `e`, `CancelOrder` returns `e`, makes no `Save` call and the stored order
is still the loaded Pending one. -/
theorem cancelOrder_pending {σ : Type} (rt : Runtime σ) (s : OrderService σ)
    (L : StoreLaw rt s) (orderID : String) (w w1 : σ) (o : OrderAR)
    (hst : L.stored w orderID = some o) (hp : o.Status = Order_status_Pending)
    (hf : (s.orderRepo.FindByID orderID w).2 = w1) :
    (∀ w2 w3, s.inv.Release o.ItemID o.FreezeID w1 = (none, w2) →
      s.orderRepo.Save { o with Status := Order_status_Canceled } w2 = (none, w3) →
      CancelOrder s orderID w =
        { out := .returned none, world := w3,
          calls := [.FindByID orderID, .Release o.ItemID o.FreezeID,
            .Save { o with Status := Order_status_Canceled }] } ∧
      L.stored w3 orderID = some { o with Status := Order_status_Canceled } ∧
      ({ o with Status := Order_status_Canceled } : OrderAR).PayTime = o.PayTime) ∧
    (∀ e w2, s.inv.Release o.ItemID o.FreezeID w1 = (some e, w2) →
      CancelOrder s orderID w =
        { out := .returned (some e), world := w2,
          calls := [.FindByID orderID, .Release o.ItemID o.FreezeID] } ∧
      L.stored w2 = L.stored w ∧
      L.stored w2 orderID = some o) := by
  refine ⟨?_, ?_⟩
  · intro w2 w3 hc hs
    obtain ⟨h1, h2⟩ := CancelOrder_canceled rt s L orderID w w1 w2 w3 o hst hp hf hc hs
    exact ⟨h1, h2, rfl⟩
  · intro e w2 hc
    have hw2 : L.stored w2 = L.stored w := by
      rw [L.stored_release rt s w1 w2 _ _ _ hc, ← hf, L.find_frame]
    refine ⟨?_, hw2, by rw [hw2, hst]⟩
    exact CancelOrder_release_err s orderID w w1 w2 o e
      (L.find_eq rt s orderID w w1 o hst hf) hp hc

theorem cancelOrder_pending_witness :
    (CancelOrder (memService okScript) "o-1" { orders := [pendingOrder], tick := 0 } =
      { out := .returned none,
        world := { orders := [canceledOrder, pendingOrder], tick := 3 },
        calls := [.FindByID "o-1", .Release 42 "f-1", .Save canceledOrder] } ∧
     (memLaw okScript).stored { orders := [canceledOrder, pendingOrder], tick := 3 } "o-1"
      = some canceledOrder) ∧
    (CancelOrder (memService releaseFailScript) "o-1" { orders := [pendingOrder], tick := 0 } =
      { out := .returned (some ErrFreeze),
        world := { orders := [pendingOrder], tick := 2 },
        calls := [.FindByID "o-1", .Release 42 "f-1"] } ∧
     (memLaw releaseFailScript).stored { orders := [pendingOrder], tick := 2 } "o-1"
      = some pendingOrder) :=
  have ha := (cancelOrder_pending (memRuntime okScript) (memService okScript)
    (memLaw okScript) "o-1" { orders := [pendingOrder], tick := 0 }
    { orders := [pendingOrder], tick := 1 } pendingOrder (by rfl) (by rfl) (by rfl)).1
    { orders := [pendingOrder], tick := 2 }
    { orders := [canceledOrder, pendingOrder], tick := 3 } (by rfl) (by rfl)
  have hb := (cancelOrder_pending (memRuntime releaseFailScript)
    (memService releaseFailScript) (memLaw releaseFailScript) "o-1"
    { orders := [pendingOrder], tick := 0 }
    { orders := [pendingOrder], tick := 1 } pendingOrder (by rfl) (by rfl) (by rfl)).2
    ErrFreeze { orders := [pendingOrder], tick := 2 } (by rfl)
  ⟨⟨ha.1, ha.2.1⟩, ⟨hb.1, hb.2.2⟩⟩

/-- C6: (a) when the stored order is not Pending, `CancelOrder` returns no error, its only
port call is the `FindByID` that loaded the order (no `Release`, `Confirm`, `Save` or
`UpdateStatus`) and the store is unchanged; (b) in particular, after a `CancelOrder` that
moved a Pending order to Canceled, a second `CancelOrder` on the world the first one left
returns no error, makes no second `Release` call and leaves the Canceled order stored. -/
theorem cancelOrder_nonPending_noop {σ : Type} (rt : Runtime σ) (s : OrderService σ)
    (L : StoreLaw rt s) (orderID : String) (w : σ) (o : OrderAR)
    (hst : L.stored w orderID = some o) :
    (o.Status ≠ Order_status_Pending →
      (CancelOrder s orderID w).out = .returned none ∧
      (CancelOrder s orderID w).calls = [.FindByID orderID] ∧
      L.stored (CancelOrder s orderID w).world = L.stored w ∧
      L.stored (CancelOrder s orderID w).world orderID = some o) ∧
    (o.Status = Order_status_Pending → ∀ w1 w2 w3,
      (s.orderRepo.FindByID orderID w).2 = w1 →
      s.inv.Release o.ItemID o.FreezeID w1 = (none, w2) →
      s.orderRepo.Save { o with Status := Order_status_Canceled } w2 = (none, w3) →
      L.stored (CancelOrder s orderID w).world orderID
        = some { o with Status := Order_status_Canceled } ∧
      (CancelOrder s orderID (CancelOrder s orderID w).world).out = .returned none ∧
      (CancelOrder s orderID (CancelOrder s orderID w).world).calls = [.FindByID orderID] ∧
      L.stored (CancelOrder s orderID (CancelOrder s orderID w).world).world
        = L.stored (CancelOrder s orderID w).world ∧
      L.stored (CancelOrder s orderID (CancelOrder s orderID w).world).world orderID
        = some { o with Status := Order_status_Canceled }) := by
  refine ⟨?_, ?_⟩
  · intro hne
    obtain ⟨h1, h2, h3⟩ := CancelOrder_noop rt s L orderID w o hst hne
    exact ⟨h1, h2, h3, by rw [h3, hst]⟩
  · intro hp w1 w2 w3 hf hc hs
    obtain ⟨hrun, hst3⟩ := CancelOrder_canceled rt s L orderID w w1 w2 w3 o hst hp hf hc hs
    obtain ⟨h1, h2, h3⟩ := CancelOrder_noop rt s L orderID w3 _ hst3 canceled_ne_pending
    rw [hrun]
    exact ⟨hst3, h1, h2, h3, by rw [h3]; exact hst3⟩

theorem cancelOrder_nonPending_noop_witness :
    ((CancelOrder (memService okScript) "o-1" { orders := [paidOrder], tick := 0 }).out
        = .returned none ∧
      (CancelOrder (memService okScript) "o-1" { orders := [paidOrder], tick := 0 }).calls
        = [.FindByID "o-1"]) ∧
    ((CancelOrder (memService okScript) "o-1"
        (CancelOrder (memService okScript) "o-1"
          { orders := [pendingOrder], tick := 0 }).world).calls = [.FindByID "o-1"] ∧
      (memLaw okScript).stored
        (CancelOrder (memService okScript) "o-1"
          (CancelOrder (memService okScript) "o-1"
            { orders := [pendingOrder], tick := 0 }).world).world "o-1"
        = some canceledOrder) :=
  have ha := (cancelOrder_nonPending_noop (memRuntime okScript) (memService okScript)
    (memLaw okScript) "o-1" { orders := [paidOrder], tick := 0 } paidOrder (by rfl)).1
    (by decide)
  have hb := (cancelOrder_nonPending_noop (memRuntime okScript) (memService okScript)
    (memLaw okScript) "o-1" { orders := [pendingOrder], tick := 0 } pendingOrder (by rfl)).2
    (by rfl) { orders := [pendingOrder], tick := 1 } { orders := [pendingOrder], tick := 2 }
    { orders := [canceledOrder, pendingOrder], tick := 3 } (by rfl) (by rfl) (by rfl)
  ⟨⟨ha.1, ha.2.1⟩, ⟨hb.2.2.1, hb.2.2.2.2⟩⟩

/-- C7: mutual exclusivity. For a stored Pending order: (a) once a `ConfirmPay` whose
`Confirm` and `Save` succeeded has stored it as Paid, a `CancelOrder` run on any world whose
store still holds that order returns no error, calls no `Release` (its only port call is the
load) and leaves the order Paid with its payment timestamp; (b) once a `CancelOrder` whose
`Release` and `Save` succeeded has stored it as Canceled, a `ConfirmPay` run on any world
whose store still holds that order returns no error, calls no `Confirm` and leaves the order
Canceled, with no payment timestamp when the Pending order had none. -/
theorem paid_canceled_exclusive {σ : Type} (rt : Runtime σ) (s : OrderService σ)
    (L : StoreLaw rt s) (orderID : String) (w w1 : σ) (o : OrderAR)
    (hst : L.stored w orderID = some o) (hp : o.Status = Order_status_Pending)
    (hf : (s.orderRepo.FindByID orderID w).2 = w1) :
    (∀ w2 w3 w4 now, s.inv.Confirm o.ItemID o.FreezeID w1 = (none, w2) →
      rt.timeNow w2 = (now, w3) →
      s.orderRepo.Save { o with Status := Order_status_Paid, PayTime := some now } w3
        = (none, w4) →
      L.stored (ConfirmPay rt s orderID w).world orderID
        = some { o with Status := Order_status_Paid, PayTime := some now } ∧
      ∀ w5, L.stored w5 orderID = L.stored (ConfirmPay rt s orderID w).world orderID →
        (CancelOrder s orderID w5).out = .returned none ∧
        (CancelOrder s orderID w5).calls = [.FindByID orderID] ∧
        L.stored (CancelOrder s orderID w5).world = L.stored w5 ∧
        L.stored (CancelOrder s orderID w5).world orderID
          = some { o with Status := Order_status_Paid, PayTime := some now }) ∧
    (∀ w2 w3, s.inv.Release o.ItemID o.FreezeID w1 = (none, w2) →
      s.orderRepo.Save { o with Status := Order_status_Canceled } w2 = (none, w3) →
      L.stored (CancelOrder s orderID w).world orderID
        = some { o with Status := Order_status_Canceled } ∧
      ∀ w5, L.stored w5 orderID = L.stored (CancelOrder s orderID w).world orderID →
        (ConfirmPay rt s orderID w5).out = .returned none ∧
        (ConfirmPay rt s orderID w5).calls = [.FindByID orderID] ∧
        L.stored (ConfirmPay rt s orderID w5).world = L.stored w5 ∧
        L.stored (ConfirmPay rt s orderID w5).world orderID
          = some { o with Status := Order_status_Canceled } ∧
        (o.PayTime = none →
          (L.stored (ConfirmPay rt s orderID w5).world orderID).map OrderAR.PayTime
            = some none)) := by
  refine ⟨?_, ?_⟩
  · intro w2 w3 w4 now hc hn hs
    obtain ⟨hrun, hst4⟩ := ConfirmPay_paid rt s L orderID w w1 w2 w3 w4 o now hst hp hf hc hn hs
    rw [hrun]
    refine ⟨hst4, ?_⟩
    intro w5 h5
    have h5s : L.stored w5 orderID
        = some { o with Status := Order_status_Paid, PayTime := some now } := by
      rw [h5]; exact hst4
    obtain ⟨h1, h2, h3⟩ := CancelOrder_noop rt s L orderID w5 _ h5s paid_ne_pending
    exact ⟨h1, h2, h3, by rw [h3]; exact h5s⟩
  · intro w2 w3 hc hs
    obtain ⟨hrun, hst3⟩ := CancelOrder_canceled rt s L orderID w w1 w2 w3 o hst hp hf hc hs
    rw [hrun]
    refine ⟨hst3, ?_⟩
    intro w5 h5
    have h5s : L.stored w5 orderID = some { o with Status := Order_status_Canceled } := by
      rw [h5]; exact hst3
    obtain ⟨h1, h2, h3⟩ := ConfirmPay_noop rt s L orderID w5 _ h5s canceled_ne_pending
    have h4 : L.stored (ConfirmPay rt s orderID w5).world orderID
        = some { o with Status := Order_status_Canceled } := by rw [h3]; exact h5s
    refine ⟨h1, h2, h3, h4, ?_⟩
    intro hnone
    rw [h4, Option.map_some', hnone]

theorem paid_canceled_exclusive_witness :
    ((CancelOrder (memService okScript) "o-1"
        (ConfirmPay (memRuntime okScript) (memService okScript) "o-1"
          { orders := [pendingOrder], tick := 0 }).world).calls = [.FindByID "o-1"] ∧
      (memLaw okScript).stored
        (CancelOrder (memService okScript) "o-1"
          (ConfirmPay (memRuntime okScript) (memService okScript) "o-1"
            { orders := [pendingOrder], tick := 0 }).world).world "o-1" = some paidAt2) ∧
    ((ConfirmPay (memRuntime okScript) (memService okScript) "o-1"
        (CancelOrder (memService okScript) "o-1"
          { orders := [pendingOrder], tick := 0 }).world).calls = [.FindByID "o-1"] ∧
      (memLaw okScript).stored
        (ConfirmPay (memRuntime okScript) (memService okScript) "o-1"
          (CancelOrder (memService okScript) "o-1"
            { orders := [pendingOrder], tick := 0 }).world).world "o-1"
        = some canceledOrder) :=
  have h := paid_canceled_exclusive (memRuntime okScript) (memService okScript)
    (memLaw okScript) "o-1" { orders := [pendingOrder], tick := 0 }
    { orders := [pendingOrder], tick := 1 } pendingOrder (by rfl) (by rfl) (by rfl)
  have ha := (h.1 { orders := [pendingOrder], tick := 2 } { orders := [pendingOrder], tick := 3 }
    { orders := [paidAt2, pendingOrder], tick := 4 } 2 (by rfl) (by rfl) (by rfl)).2
    (ConfirmPay (memRuntime okScript) (memService okScript) "o-1"
      { orders := [pendingOrder], tick := 0 }).world rfl
  have hb := (h.2 { orders := [pendingOrder], tick := 2 }
    { orders := [canceledOrder, pendingOrder], tick := 3 } (by rfl) (by rfl)).2
    (CancelOrder (memService okScript) "o-1" { orders := [pendingOrder], tick := 0 }).world rfl
  ⟨⟨ha.2.1, ha.2.2.2⟩, ⟨hb.2.1, hb.2.2.2.1⟩⟩

/-- C8: when `FindByID` fails with `e` (whatever pointer comes with it), `ConfirmPay` and
`CancelOrder` both return exactly `e`, their only port call is that `FindByID` (no `Confirm`,
`Release` or `Save`), and the store is unchanged. -/
theorem find_error_propagates {σ : Type} (rt : Runtime σ) (s : OrderService σ)
    (L : StoreLaw rt s) (orderID : String) (w : σ) (p : Option OrderAR) (e : Error)
    (hf : (s.orderRepo.FindByID orderID w).1 = (p, some e)) :
    (ConfirmPay rt s orderID w).out = .returned (some e) ∧
    (ConfirmPay rt s orderID w).calls = [.FindByID orderID] ∧
    L.stored (ConfirmPay rt s orderID w).world = L.stored w ∧
    (CancelOrder s orderID w).out = .returned (some e) ∧
    (CancelOrder s orderID w).calls = [.FindByID orderID] ∧
    L.stored (CancelOrder s orderID w).world = L.stored w := by
  rw [ConfirmPay_find_err rt s orderID w p e hf, CancelOrder_find_err s orderID w p e hf]
  exact ⟨rfl, rfl, L.find_frame w orderID, rfl, rfl, L.find_frame w orderID⟩

theorem find_error_propagates_witness :
    ((memService okScript).orderRepo.FindByID "o-2" { orders := [pendingOrder], tick := 0 }).1
      = (none, some ErrNotFound) ∧
    (ConfirmPay (memRuntime okScript) (memService okScript) "o-2"
      { orders := [pendingOrder], tick := 0 }).out = .returned (some ErrNotFound) ∧
    (CancelOrder (memService okScript) "o-2"
      { orders := [pendingOrder], tick := 0 }).out = .returned (some ErrNotFound) :=
  have h := find_error_propagates (memRuntime okScript) (memService okScript)
    (memLaw okScript) "o-2" { orders := [pendingOrder], tick := 0 } none ErrNotFound (by rfl)
  ⟨by rfl, h.1, h.2.2.2.1⟩

/-- C9: when `Save` succeeds, `CreateOrder` returns, with no error, the order it built:
status Pending, no payment timestamp, the four arguments as `UserID`, `ItemID`, `FreezeID`
and `Price`, the generated identifier and the time read; that order is the one passed to
`Save`, which is the only port call (no inventory call), and a `FindByID` on its identifier
afterwards returns it. -/
theorem createOrder_success {σ : Type} (rt : Runtime σ) (s : OrderService σ)
    (L : StoreLaw rt s) (userID itemID : Int) (freezeID : String) (price : Int)
    (w w1 w2 w3 : σ) (id : String) (t : Nat)
    (hg : rt.generateOrderID w = (id, w1)) (hn : rt.timeNow w1 = (t, w2))
    (hs : s.orderRepo.Save
      { ID := id, UserID := userID, ItemID := itemID, FreezeID := freezeID, Price := price,
        Status := Order_status_Pending, CreateTime := t, PayTime := none } w2 = (none, w3)) :
    CreateOrder rt s userID itemID freezeID price w =
      { out := .returned
          (some { ID := id, UserID := userID, ItemID := itemID, FreezeID := freezeID,
                  Price := price, Status := Order_status_Pending, CreateTime := t,
                  PayTime := none }, none),
        world := w3,
        calls := [.Save { ID := id, UserID := userID, ItemID := itemID, FreezeID := freezeID,
                          Price := price, Status := Order_status_Pending, CreateTime := t,
                          PayTime := none }] } ∧
    (s.orderRepo.FindByID id w3).1 =
      (some { ID := id, UserID := userID, ItemID := itemID, FreezeID := freezeID,
              Price := price, Status := Order_status_Pending, CreateTime := t,
              PayTime := none }, none) := by
  refine ⟨?_, ?_⟩
  · simp only [CreateOrder, hg, hn, hs]
  · rw [L.find_iff, L.stored_save rt s w2 w3 _ hs]
    exact Function.update_same _ _ _

theorem createOrder_success_witness :
    CreateOrder (memRuntime okScript) (memService okScript) 1 42 "f-1" 500
        { orders := [], tick := 6 } =
      { out := .returned (some pendingOrder, none),
        world := { orders := [pendingOrder], tick := 9 },
        calls := [.Save pendingOrder] } ∧
    ((memService okScript).orderRepo.FindByID "o-1" { orders := [pendingOrder], tick := 9 }).1
      = (some pendingOrder, none) :=
  createOrder_success (memRuntime okScript) (memService okScript) (memLaw okScript)
    1 42 "f-1" 500 { orders := [], tick := 6 } { orders := [], tick := 7 }
    { orders := [], tick := 8 } { orders := [pendingOrder], tick := 9 } "o-1" 7
    (by rfl) (by rfl) (by rfl)

/-- C10: when `Save` fails with `e`, `CreateOrder` returns the nil order together with
exactly `e`, and `Save` is its only port call (no inventory call). -/
theorem createOrder_save_fails {σ : Type} (rt : Runtime σ) (s : OrderService σ)
    (userID itemID : Int) (freezeID : String) (price : Int)
    (w w1 w2 w3 : σ) (id : String) (t : Nat) (e : Error)
    (hg : rt.generateOrderID w = (id, w1)) (hn : rt.timeNow w1 = (t, w2))
    (hs : s.orderRepo.Save
      { ID := id, UserID := userID, ItemID := itemID, FreezeID := freezeID, Price := price,
        Status := Order_status_Pending, CreateTime := t, PayTime := none } w2
        = (some e, w3)) :
    CreateOrder rt s userID itemID freezeID price w =
      { out := .returned (none, some e),
        world := w3,
        calls := [.Save { ID := id, UserID := userID, ItemID := itemID, FreezeID := freezeID,
                          Price := price, Status := Order_status_Pending, CreateTime := t,
                          PayTime := none }] } := by
  simp only [CreateOrder, hg, hn, hs]

theorem createOrder_save_fails_witness :
    CreateOrder (memRuntime saveFailScript) (memService saveFailScript) 1 42 "f-1" 500
        { orders := [], tick := 6 } =
      { out := .returned (none, some ErrStore),
        world := { orders := [], tick := 9 },
        calls := [.Save pendingOrder] } :=
  createOrder_save_fails (memRuntime saveFailScript) (memService saveFailScript)
    1 42 "f-1" 500 { orders := [], tick := 6 } { orders := [], tick := 7 }
    { orders := [], tick := 8 } { orders := [], tick := 9 } "o-1" 7 ErrStore
    (by rfl) (by rfl) (by rfl)

/-- C11, as stated, fails: `CreateOrder` checks none of its arguments. With an empty freeze
reference, and with a negative price, it returns an order and that order is stored. -/
theorem createOrder_validation_counterexample :
    ((CreateOrder (memRuntime okScript) (memService okScript) 1 42 "" 500
        { orders := [], tick := 6 }).out
      = .returned (some { ID := "o-1", UserID := 1, ItemID := 42, FreezeID := "", Price := 500,
                          Status := Order_status_Pending, CreateTime := 7, PayTime := none },
                   none) ∧
     (memLaw okScript).stored
        (CreateOrder (memRuntime okScript) (memService okScript) 1 42 "" 500
          { orders := [], tick := 6 }).world "o-1"
      = some { ID := "o-1", UserID := 1, ItemID := 42, FreezeID := "", Price := 500,
               Status := Order_status_Pending, CreateTime := 7, PayTime := none }) ∧
    ((CreateOrder (memRuntime okScript) (memService okScript) 1 42 "f-1" (-500)
        { orders := [], tick := 6 }).out
      = .returned (some { ID := "o-1", UserID := 1, ItemID := 42, FreezeID := "f-1",
                          Price := -500, Status := Order_status_Pending, CreateTime := 7,
                          PayTime := none }, none) ∧
     (memLaw okScript).stored
        (CreateOrder (memRuntime okScript) (memService okScript) 1 42 "f-1" (-500)
          { orders := [], tick := 6 }).world "o-1"
      = some { ID := "o-1", UserID := 1, ItemID := 42, FreezeID := "f-1", Price := -500,
               Status := Order_status_Pending, CreateTime := 7, PayTime := none }) :=
  ⟨⟨by rfl, by rfl⟩, ⟨by rfl, by rfl⟩⟩

/-- C11, amended: `CreateOrder` validates nothing. For every input, an empty freeze reference
and a negative price included, its one port call is `Save` of the Pending order that carries
the arguments as given; it returns that order when `Save` succeeds, and returns no order
exactly when `Save` fails, with the error of `Save`. -/
theorem createOrder_no_validation {σ : Type} (rt : Runtime σ) (s : OrderService σ)
    (userID itemID : Int) (freezeID : String) (price : Int) (w : σ) :
    (CreateOrder rt s userID itemID freezeID price w).calls =
      [.Save { ID := (rt.generateOrderID w).1, UserID := userID, ItemID := itemID,
               FreezeID := freezeID, Price := price, Status := Order_status_Pending,
               CreateTime := (rt.timeNow (rt.generateOrderID w).2).1, PayTime := none }] ∧
    ((s.orderRepo.Save
        { ID := (rt.generateOrderID w).1, UserID := userID, ItemID := itemID,
          FreezeID := freezeID, Price := price, Status := Order_status_Pending,
          CreateTime := (rt.timeNow (rt.generateOrderID w).2).1, PayTime := none }
        (rt.timeNow (rt.generateOrderID w).2).2).1 = none →
      (CreateOrder rt s userID itemID freezeID price w).out =
        .returned
          (some { ID := (rt.generateOrderID w).1, UserID := userID, ItemID := itemID,
                  FreezeID := freezeID, Price := price, Status := Order_status_Pending,
                  CreateTime := (rt.timeNow (rt.generateOrderID w).2).1, PayTime := none },
            none)) ∧
    (∀ e, (s.orderRepo.Save
        { ID := (rt.generateOrderID w).1, UserID := userID, ItemID := itemID,
          FreezeID := freezeID, Price := price, Status := Order_status_Pending,
          CreateTime := (rt.timeNow (rt.generateOrderID w).2).1, PayTime := none }
        (rt.timeNow (rt.generateOrderID w).2).2).1 = some e →
      (CreateOrder rt s userID itemID freezeID price w).out = .returned (none, some e)) := by
  refine ⟨?_, ?_, ?_⟩
  · simp only [CreateOrder]
    split <;> rfl
  · intro h
    simp only [CreateOrder, h]
  · intro e h
    simp only [CreateOrder, h]

/-- C12: terminal states never change. Against a lawful store in which a failed `Save` saves
nothing, once the order stored under an id is not Pending (Paid, Failed or Canceled), then
for every history of `ConfirmPay` and `CancelOrder` calls, on any order ids and whatever the
inventory and `Save` calls answer, the order stored under that id is the same order, status
and payment timestamp included, in every world the history passes through. -/
theorem terminal_never_changes {σ : Type} (rt : Runtime σ) (s : OrderService σ)
    (L : StoreLaw rt s) (hk : SaveFailKeeps L) (id : String) (o : OrderAR) (w : σ)
    (ops : List Op)
    (hst : L.stored w id = some o)
    (hterm : o.Status = Order_status_Paid ∨ o.Status = Order_status_Failed ∨
      o.Status = Order_status_Canceled) :
    ∀ w1 ∈ worldsAfter rt s ops w,
      L.stored w1 id = some o ∧
      statusAt L id w1 = some o.Status ∧
      (L.stored w1 id).map OrderAR.PayTime = some o.PayTime := by
  have hne : o.Status ≠ Order_status_Pending := by
    rcases hterm with h | h | h <;> rw [h] <;> decide
  intro w1 h1
  have h := terminal_stays rt s L hk id o hne ops w hst w1 h1
  simp only [statusAt, h, Option.map_some', and_self]

theorem terminal_never_changes_witness :
    (memLaw confirmFailScript).stored
        (runOps (memRuntime confirmFailScript) (memService confirmFailScript)
          [.cancelOrder "o-1", .confirmPay "o-1", .confirmPay "o-2", .cancelOrder "o-1"]
          { orders := [paidOrder], tick := 0 }) "o-1" = some paidOrder :=
  (terminal_never_changes (memRuntime confirmFailScript) (memService confirmFailScript)
    (memLaw confirmFailScript) (memLaw_saveFailKeeps confirmFailScript) "o-1" paidOrder
    { orders := [paidOrder], tick := 0 }
    [.cancelOrder "o-1", .confirmPay "o-1", .confirmPay "o-2", .cancelOrder "o-1"]
    (by rfl) (Or.inl (by rfl)) _ (runOps_mem_worldsAfter _ _ _ _)).1

/-- C13: the freeze binding is immutable. Whatever the ports answer, an order that
`ConfirmPay` or `CancelOrder` passes to `Save` is the order `FindByID` returned with the same
`ID`, `UserID`, `ItemID`, `FreezeID`, `Price` and `CreateTime`; `ConfirmPay` changes only
`Status` and `PayTime`, and `CancelOrder` only `Status`. -/
theorem save_keeps_binding {σ : Type} (rt : Runtime σ) (s : OrderService σ)
    (orderID : String) (w : σ) (o1 : OrderAR) :
    (Call.Save o1 ∈ (ConfirmPay rt s orderID w).calls →
      ∃ o, (s.orderRepo.FindByID orderID w).1 = (some o, none) ∧
        o1.ID = o.ID ∧ o1.UserID = o.UserID ∧ o1.ItemID = o.ItemID ∧
        o1.FreezeID = o.FreezeID ∧ o1.Price = o.Price ∧ o1.CreateTime = o.CreateTime) ∧
    (Call.Save o1 ∈ (CancelOrder s orderID w).calls →
      ∃ o, (s.orderRepo.FindByID orderID w).1 = (some o, none) ∧
        o1.ID = o.ID ∧ o1.UserID = o.UserID ∧ o1.ItemID = o.ItemID ∧
        o1.FreezeID = o.FreezeID ∧ o1.Price = o.Price ∧ o1.CreateTime = o.CreateTime ∧
        o1.PayTime = o.PayTime) := by
  refine ⟨?_, ?_⟩
  · intro hmem
    rcases ConfirmPay_shape rt s orderID w with h | ⟨o, hf, _, ⟨e, _, h⟩ | ⟨_, t, h⟩⟩
    · rw [h] at hmem; simp at hmem
    · rw [h] at hmem; simp at hmem
    · rw [h] at hmem
      simp at hmem
      subst hmem
      exact ⟨o, hf, rfl, rfl, rfl, rfl, rfl, rfl⟩
  · intro hmem
    rcases CancelOrder_shape s orderID w with h | ⟨o, hf, _, ⟨e, _, h⟩ | ⟨_, h⟩⟩
    · rw [h] at hmem; simp at hmem
    · rw [h] at hmem; simp at hmem
    · rw [h] at hmem
      simp at hmem
      subst hmem
      exact ⟨o, hf, rfl, rfl, rfl, rfl, rfl, rfl, rfl⟩

theorem save_keeps_binding_witness :
    Call.Save paidAt2 ∈ (ConfirmPay (memRuntime okScript) (memService okScript) "o-1"
      { orders := [pendingOrder], tick := 0 }).calls ∧
    Call.Save canceledOrder ∈ (CancelOrder (memService okScript) "o-1"
      { orders := [pendingOrder], tick := 0 }).calls ∧
    (∃ o, ((memService okScript).orderRepo.FindByID "o-1"
        { orders := [pendingOrder], tick := 0 }).1 = (some o, none) ∧
      paidAt2.ID = o.ID ∧ paidAt2.UserID = o.UserID ∧ paidAt2.ItemID = o.ItemID ∧
      paidAt2.FreezeID = o.FreezeID ∧ paidAt2.Price = o.Price ∧
      paidAt2.CreateTime = o.CreateTime) :=
  ⟨by decide, by decide,
    (save_keeps_binding (memRuntime okScript) (memService okScript) "o-1"
      { orders := [pendingOrder], tick := 0 } paidAt2).1 (by decide)⟩

/-- C14: the payment timestamp is set exactly when the status is Paid. Against a lawful
store in which a failed `Save` saves nothing, for an order `CreateOrder` returned and every
history of `ConfirmPay` and `CancelOrder` calls run after it, in every world the history
passes an order is stored under that id and it has a payment timestamp if and only if its
status is Paid. -/
theorem payTime_iff_paid {σ : Type} (rt : Runtime σ) (s : OrderService σ)
    (L : StoreLaw rt s) (hk : SaveFailKeeps L) (userID itemID : Int) (freezeID : String)
    (price : Int) (w : σ) (order : OrderAR) (ops : List Op)
    (hc : (CreateOrder rt s userID itemID freezeID price w).out
      = .returned (some order, none)) :
    ∀ w1 ∈ worldsAfter rt s ops (CreateOrder rt s userID itemID freezeID price w).world,
      ∃ o, L.stored w1 order.ID = some o ∧
        (o.PayTime ≠ none ↔ o.Status = Order_status_Paid) := by
  obtain ⟨hp, hpt, _, _, hst⟩ := CreateOrder_created rt s L userID itemID freezeID price w order hc
  intro w1 h1
  rcases lifecycle_stays rt s L hk order.ID order hp ops _ (Or.inl hst) w1 h1
    with h | ⟨t, h⟩ | h
  · refine ⟨order, h, ?_⟩
    rw [hpt, hp]
    decide
  · refine ⟨_, h, ?_⟩
    simp
  · refine ⟨_, h, ?_⟩
    simp only [hpt, ne_eq, not_true_eq_false, false_iff]
    decide

theorem payTime_iff_paid_witness :
    ∃ o, (memLaw okScript).stored
        (runOps (memRuntime okScript) (memService okScript)
          [.confirmPay "o-1", .cancelOrder "o-1"]
          (CreateOrder (memRuntime okScript) (memService okScript) 1 42 "f-1" 500
            { orders := [], tick := 6 }).world) pendingOrder.ID = some o ∧
      (o.PayTime ≠ none ↔ o.Status = Order_status_Paid) :=
  payTime_iff_paid (memRuntime okScript) (memService okScript) (memLaw okScript)
    (memLaw_saveFailKeeps okScript) 1 42 "f-1" 500 { orders := [], tick := 6 } pendingOrder
    [.confirmPay "o-1", .cancelOrder "o-1"] (by rfl) _ (runOps_mem_worldsAfter _ _ _ _)

/-- C15: a `Save` failure after a successful inventory call leaves the order Pending.
Against a lawful store in which a failed `Save` saves nothing, for a stored Pending order:
(a) if `Confirm` succeeds and `Save` fails with `e`, `ConfirmPay` returns `e` and the stored
order is still the loaded Pending one (no payment timestamp when it had none); a retried
`ConfirmPay` calls `Confirm` again, and when that `Confirm` and the `Save` succeed it returns
no error and the stored order is Paid; (b) the same for `CancelOrder` with `Release` and
Canceled. -/
theorem save_failure_leaves_pending {σ : Type} (rt : Runtime σ) (s : OrderService σ)
    (L : StoreLaw rt s) (hk : SaveFailKeeps L) (orderID : String) (w w1 : σ) (o : OrderAR)
    (hst : L.stored w orderID = some o) (hp : o.Status = Order_status_Pending)
    (hf : (s.orderRepo.FindByID orderID w).2 = w1) :
    (∀ w2 w3 w4 now e, s.inv.Confirm o.ItemID o.FreezeID w1 = (none, w2) →
      rt.timeNow w2 = (now, w3) →
      s.orderRepo.Save { o with Status := Order_status_Paid, PayTime := some now } w3
        = (some e, w4) →
      ConfirmPay rt s orderID w =
        { out := .returned (some e), world := w4,
          calls := [.FindByID orderID, .Confirm o.ItemID o.FreezeID,
            .Save { o with Status := Order_status_Paid, PayTime := some now }] } ∧
      L.stored w4 orderID = some o ∧
      statusAt L orderID w4 = some Order_status_Pending ∧
      (o.PayTime = none → (L.stored w4 orderID).map OrderAR.PayTime = some none) ∧
      (∃ rest, (ConfirmPay rt s orderID w4).calls
        = [.FindByID orderID, .Confirm o.ItemID o.FreezeID] ++ rest) ∧
      (∀ w5 w6 w7 w8 now2, (s.orderRepo.FindByID orderID w4).2 = w5 →
        s.inv.Confirm o.ItemID o.FreezeID w5 = (none, w6) →
        rt.timeNow w6 = (now2, w7) →
        s.orderRepo.Save { o with Status := Order_status_Paid, PayTime := some now2 } w7
          = (none, w8) →
        (ConfirmPay rt s orderID w4).out = .returned none ∧
        (ConfirmPay rt s orderID w4).world = w8 ∧
        L.stored w8 orderID
          = some { o with Status := Order_status_Paid, PayTime := some now2 })) ∧
    (∀ w2 w3 e, s.inv.Release o.ItemID o.FreezeID w1 = (none, w2) →
      s.orderRepo.Save { o with Status := Order_status_Canceled } w2 = (some e, w3) →
      CancelOrder s orderID w =
        { out := .returned (some e), world := w3,
          calls := [.FindByID orderID, .Release o.ItemID o.FreezeID,
            .Save { o with Status := Order_status_Canceled }] } ∧
      L.stored w3 orderID = some o ∧
      statusAt L orderID w3 = some Order_status_Pending ∧
      (o.PayTime = none → (L.stored w3 orderID).map OrderAR.PayTime = some none) ∧
      (∃ rest, (CancelOrder s orderID w3).calls
        = [.FindByID orderID, .Release o.ItemID o.FreezeID] ++ rest) ∧
      (∀ w4 w5 w6, (s.orderRepo.FindByID orderID w3).2 = w4 →
        s.inv.Release o.ItemID o.FreezeID w4 = (none, w5) →
        s.orderRepo.Save { o with Status := Order_status_Canceled } w5 = (none, w6) →
        (CancelOrder s orderID w3).out = .returned none ∧
        (CancelOrder s orderID w3).world = w6 ∧
        L.stored w6 orderID = some { o with Status := Order_status_Canceled })) := by
  have hfe := L.find_eq rt s orderID w w1 o hst hf
  have hw1 : L.stored w1 = L.stored w := by rw [← hf, L.find_frame]
  refine ⟨?_, ?_⟩
  · intro w2 w3 w4 now e hc hn hs
    have hw4 : L.stored w4 = L.stored w := by
      have h := hk w3 _ e (by rw [hs])
      rw [hs] at h
      rw [h, L.stored_now rt s w2 w3 now hn, L.stored_confirm rt s w1 w2 _ _ _ hc, hw1]
    have hst4 : L.stored w4 orderID = some o := by rw [hw4, hst]
    refine ⟨?_, hst4, ?_, ?_, ?_, ?_⟩
    · rw [ConfirmPay_confirm_ok rt s orderID w w1 w2 w3 o now hfe hp hc hn, hs]
    · simp only [statusAt, hst4, Option.map_some', hp]
    · intro h
      rw [hst4, Option.map_some', h]
    · exact ConfirmPay_pending_calls rt s orderID w4 o ((L.find_iff w4 orderID o).2 hst4) hp
    · intro w5 w6 w7 w8 now2 hf2 hc2 hn2 hs2
      obtain ⟨hrun, hst8⟩ :=
        ConfirmPay_paid rt s L orderID w4 w5 w6 w7 w8 o now2 hst4 hp hf2 hc2 hn2 hs2
      rw [hrun]
      exact ⟨rfl, rfl, hst8⟩
  · intro w2 w3 e hc hs
    have hw3 : L.stored w3 = L.stored w := by
      have h := hk w2 _ e (by rw [hs])
      rw [hs] at h
      rw [h, L.stored_release rt s w1 w2 _ _ _ hc, hw1]
    have hst3 : L.stored w3 orderID = some o := by rw [hw3, hst]
    refine ⟨?_, hst3, ?_, ?_, ?_, ?_⟩
    · rw [CancelOrder_release_ok s orderID w w1 w2 o hfe hp hc, hs]
    · simp only [statusAt, hst3, Option.map_some', hp]
    · intro h
      rw [hst3, Option.map_some', h]
    · exact CancelOrder_pending_calls s orderID w3 o ((L.find_iff w3 orderID o).2 hst3) hp
    · intro w4 w5 w6 hf2 hc2 hs2
      obtain ⟨hrun, hst6⟩ :=
        CancelOrder_canceled rt s L orderID w3 w4 w5 w6 o hst3 hp hf2 hc2 hs2
      rw [hrun]
      exact ⟨rfl, rfl, hst6⟩

theorem save_failure_leaves_pending_witness :
    ((ConfirmPay (memRuntime (saveFailsAt 3)) (memService (saveFailsAt 3)) "o-1"
        { orders := [pendingOrder], tick := 0 }).out = .returned (some ErrStore) ∧
      statusAt (memLaw (saveFailsAt 3)) "o-1" { orders := [pendingOrder], tick := 4 }
        = some Order_status_Pending ∧
      (ConfirmPay (memRuntime (saveFailsAt 3)) (memService (saveFailsAt 3)) "o-1"
        { orders := [pendingOrder], tick := 4 }).out = .returned none ∧
      (memLaw (saveFailsAt 3)).stored
          { orders := [{ pendingOrder with Status := Order_status_Paid, PayTime := some 6 },
              pendingOrder], tick := 8 } "o-1"
        = some { pendingOrder with Status := Order_status_Paid, PayTime := some 6 }) ∧
    ((CancelOrder (memService (saveFailsAt 2)) "o-1"
        { orders := [pendingOrder], tick := 0 }).out = .returned (some ErrStore) ∧
      statusAt (memLaw (saveFailsAt 2)) "o-1" { orders := [pendingOrder], tick := 3 }
        = some Order_status_Pending ∧
      (CancelOrder (memService (saveFailsAt 2)) "o-1"
        { orders := [pendingOrder], tick := 3 }).out = .returned none ∧
      (memLaw (saveFailsAt 2)).stored
          { orders := [canceledOrder, pendingOrder], tick := 6 } "o-1"
        = some canceledOrder) :=
  have ha := (save_failure_leaves_pending (memRuntime (saveFailsAt 3))
    (memService (saveFailsAt 3)) (memLaw (saveFailsAt 3)) (memLaw_saveFailKeeps _) "o-1"
    { orders := [pendingOrder], tick := 0 } { orders := [pendingOrder], tick := 1 }
    pendingOrder (by rfl) (by rfl) (by rfl)).1
    { orders := [pendingOrder], tick := 2 } { orders := [pendingOrder], tick := 3 }
    { orders := [pendingOrder], tick := 4 } 2 ErrStore (by rfl) (by rfl) (by rfl)
  have ha2 := ha.2.2.2.2.2 { orders := [pendingOrder], tick := 5 }
    { orders := [pendingOrder], tick := 6 } { orders := [pendingOrder], tick := 7 }
    { orders := [{ pendingOrder with Status := Order_status_Paid, PayTime := some 6 },
        pendingOrder], tick := 8 } 6 (by rfl) (by rfl) (by rfl) (by rfl)
  have hb := (save_failure_leaves_pending (memRuntime (saveFailsAt 2))
    (memService (saveFailsAt 2)) (memLaw (saveFailsAt 2)) (memLaw_saveFailKeeps _) "o-1"
    { orders := [pendingOrder], tick := 0 } { orders := [pendingOrder], tick := 1 }
    pendingOrder (by rfl) (by rfl) (by rfl)).2
    { orders := [pendingOrder], tick := 2 } { orders := [pendingOrder], tick := 3 }
    ErrStore (by rfl) (by rfl)
  have hb2 := hb.2.2.2.2.2 { orders := [pendingOrder], tick := 4 }
    { orders := [pendingOrder], tick := 5 }
    { orders := [canceledOrder, pendingOrder], tick := 6 } (by rfl) (by rfl) (by rfl)
  ⟨⟨by rw [ha.1], ha.2.2.1, ha2.1, ha2.2.2⟩, ⟨by rw [hb.1], hb.2.2.1, hb2.1, hb2.2.2⟩⟩

/-- C16: Failed is never emitted and the status changes at most once. Against a lawful store
in which a failed `Save` saves nothing, for an order `CreateOrder` returned and every history
of `ConfirmPay` and `CancelOrder` calls run after it: in every world the history passes the
stored status is Pending, Paid or Canceled, never Failed; over the whole history the stored
status changes at most once; and each change is from Pending to Paid or from Pending to
Canceled. -/
theorem status_changes_at_most_once {σ : Type} (rt : Runtime σ) (s : OrderService σ)
    (L : StoreLaw rt s) (hk : SaveFailKeeps L) (userID itemID : Int) (freezeID : String)
    (price : Int) (w : σ) (order : OrderAR) (ops : List Op)
    (hc : (CreateOrder rt s userID itemID freezeID price w).out
      = .returned (some order, none)) :
    (∀ w1 ∈ worldsAfter rt s ops (CreateOrder rt s userID itemID freezeID price w).world,
      (statusAt L order.ID w1 = some Order_status_Pending ∨
        statusAt L order.ID w1 = some Order_status_Paid ∨
        statusAt L order.ID w1 = some Order_status_Canceled) ∧
      statusAt L order.ID w1 ≠ some Order_status_Failed) ∧
    changes ((worldsAfter rt s ops
      (CreateOrder rt s userID itemID freezeID price w).world).map (statusAt L order.ID)) ≤ 1 ∧
    List.Chain' AllowedMove ((worldsAfter rt s ops
      (CreateOrder rt s userID itemID freezeID price w).world).map (statusAt L order.ID)) := by
  obtain ⟨hp, _, _, _, hst⟩ := CreateOrder_created rt s L userID itemID freezeID price w order hc
  refine ⟨?_, changes_le_one rt s L hk order.ID ops _,
    moves_allowed rt s L hk order.ID ops _⟩
  intro w1 h1
  rcases lifecycle_stays rt s L hk order.ID order hp ops _ (Or.inl hst) w1 h1
    with h | ⟨t, h⟩ | h
  · have hs : statusAt L order.ID w1 = some Order_status_Pending := by
      simp only [statusAt, h, Option.map_some', hp]
    rw [hs]
    exact ⟨Or.inl rfl, by decide⟩
  · have hs : statusAt L order.ID w1 = some Order_status_Paid := by
      simp only [statusAt, h, Option.map_some']
    rw [hs]
    exact ⟨Or.inr (Or.inl rfl), by decide⟩
  · have hs : statusAt L order.ID w1 = some Order_status_Canceled := by
      simp only [statusAt, h, Option.map_some']
    rw [hs]
    exact ⟨Or.inr (Or.inr rfl), by decide⟩

theorem status_changes_at_most_once_witness :
    (worldsAfter (memRuntime (saveFailsAt 12)) (memService (saveFailsAt 12))
        [.confirmPay "o-1", .confirmPay "o-1", .cancelOrder "o-1"]
        (CreateOrder (memRuntime (saveFailsAt 12)) (memService (saveFailsAt 12)) 1 42 "f-1" 500
          { orders := [], tick := 6 }).world).map (statusAt (memLaw (saveFailsAt 12)) "o-1")
      = [some Order_status_Pending, some Order_status_Pending, some Order_status_Paid,
          some Order_status_Paid] ∧
    changes ((worldsAfter (memRuntime (saveFailsAt 12)) (memService (saveFailsAt 12))
        [.confirmPay "o-1", .confirmPay "o-1", .cancelOrder "o-1"]
        (CreateOrder (memRuntime (saveFailsAt 12)) (memService (saveFailsAt 12)) 1 42 "f-1" 500
          { orders := [], tick := 6 }).world).map
            (statusAt (memLaw (saveFailsAt 12)) pendingOrder.ID)) ≤ 1 :=
  ⟨by rfl,
    (status_changes_at_most_once (memRuntime (saveFailsAt 12)) (memService (saveFailsAt 12))
      (memLaw (saveFailsAt 12)) (memLaw_saveFailKeeps _) 1 42 "f-1" 500
      { orders := [], tick := 6 } pendingOrder
      [.confirmPay "o-1", .confirmPay "o-1", .cancelOrder "o-1"] (by rfl)).2.1⟩

/-- C18: saga ordering, for every environment. (1) On a loaded Pending order whose `Confirm`
succeeds the port calls of `ConfirmPay` are exactly `FindByID(id)`, `Confirm` with the loaded
order's item and freeze ids, one `Save`; (2) likewise `FindByID`, `Release`, `Save` for
`CancelOrder`. (3, 4) Whenever `ConfirmPay` or `CancelOrder` calls `Save`, it is the last of
exactly three calls and the inventory call before it succeeded. (5) `ConfirmPay` never calls
`Release`, (6) `CancelOrder` never calls `Confirm`, and (7) none of `ConfirmPay`,
`CancelOrder` and `CreateOrder` calls `UpdateStatus`. -/
theorem saga_ordering {σ : Type} (rt : Runtime σ) (s : OrderService σ)
    (orderID : String) (w : σ) :
    (∀ o, (s.orderRepo.FindByID orderID w).1 = (some o, none) →
      o.Status = Order_status_Pending →
      (s.inv.Confirm o.ItemID o.FreezeID (s.orderRepo.FindByID orderID w).2).1 = none →
      (ConfirmPay rt s orderID w).calls =
        [.FindByID orderID, .Confirm o.ItemID o.FreezeID,
          .Save { o with Status := Order_status_Paid,
                         PayTime := some (rt.timeNow (s.inv.Confirm o.ItemID o.FreezeID
                           (s.orderRepo.FindByID orderID w).2).2).1 }]) ∧
    (∀ o, (s.orderRepo.FindByID orderID w).1 = (some o, none) →
      o.Status = Order_status_Pending →
      (s.inv.Release o.ItemID o.FreezeID (s.orderRepo.FindByID orderID w).2).1 = none →
      (CancelOrder s orderID w).calls =
        [.FindByID orderID, .Release o.ItemID o.FreezeID,
          .Save { o with Status := Order_status_Canceled }]) ∧
    (∀ o1, Call.Save o1 ∈ (ConfirmPay rt s orderID w).calls →
      ∃ o, (s.orderRepo.FindByID orderID w).1 = (some o, none) ∧
        (s.inv.Confirm o.ItemID o.FreezeID (s.orderRepo.FindByID orderID w).2).1 = none ∧
        (ConfirmPay rt s orderID w).calls =
          [.FindByID orderID, .Confirm o.ItemID o.FreezeID, .Save o1]) ∧
    (∀ o1, Call.Save o1 ∈ (CancelOrder s orderID w).calls →
      ∃ o, (s.orderRepo.FindByID orderID w).1 = (some o, none) ∧
        (s.inv.Release o.ItemID o.FreezeID (s.orderRepo.FindByID orderID w).2).1 = none ∧
        (CancelOrder s orderID w).calls =
          [.FindByID orderID, .Release o.ItemID o.FreezeID, .Save o1]) ∧
    (∀ i f, Call.Release i f ∉ (ConfirmPay rt s orderID w).calls) ∧
    (∀ i f, Call.Confirm i f ∉ (CancelOrder s orderID w).calls) ∧
    (∀ id st, Call.UpdateStatus id st ∉ (ConfirmPay rt s orderID w).calls ∧
      Call.UpdateStatus id st ∉ (CancelOrder s orderID w).calls) ∧
    (∀ userID itemID freezeID price id st,
      Call.UpdateStatus id st ∉ (CreateOrder rt s userID itemID freezeID price w).calls) := by
  refine ⟨?_, ?_, ?_, ?_, ?_, ?_, ?_, ?_⟩
  · intro o hf hp hc
    rw [ConfirmPay_confirm_ok rt s orderID w _ _ _ o _ (Prod.ext hf rfl) hp (Prod.ext hc rfl) rfl]
  · intro o hf hp hc
    rw [CancelOrder_release_ok s orderID w _ _ o (Prod.ext hf rfl) hp (Prod.ext hc rfl)]
  · intro o1 hmem
    rcases ConfirmPay_shape rt s orderID w with h | ⟨o, hf, _, ⟨e, _, h⟩ | ⟨hc, t, h⟩⟩
    · rw [h] at hmem; simp at hmem
    · rw [h] at hmem; simp at hmem
    · rw [h] at hmem
      simp at hmem
      subst hmem
      exact ⟨o, hf, hc, h⟩
  · intro o1 hmem
    rcases CancelOrder_shape s orderID w with h | ⟨o, hf, _, ⟨e, _, h⟩ | ⟨hc, h⟩⟩
    · rw [h] at hmem; simp at hmem
    · rw [h] at hmem; simp at hmem
    · rw [h] at hmem
      simp at hmem
      subst hmem
      exact ⟨o, hf, hc, h⟩
  · intro i f
    rcases ConfirmPay_shape rt s orderID w with h | ⟨o, _, _, ⟨e, _, h⟩ | ⟨_, t, h⟩⟩ <;>
      rw [h] <;> simp
  · intro i f
    rcases CancelOrder_shape s orderID w with h | ⟨o, _, _, ⟨e, _, h⟩ | ⟨_, h⟩⟩ <;>
      rw [h] <;> simp
  · intro id st
    refine ⟨?_, ?_⟩
    · rcases ConfirmPay_shape rt s orderID w with h | ⟨o, _, _, ⟨e, _, h⟩ | ⟨_, t, h⟩⟩ <;>
        rw [h] <;> simp
    · rcases CancelOrder_shape s orderID w with h | ⟨o, _, _, ⟨e, _, h⟩ | ⟨_, h⟩⟩ <;>
        rw [h] <;> simp
  · intro userID itemID freezeID price id st
    simp only [CreateOrder]
    split <;> simp

theorem saga_ordering_witness :
    (ConfirmPay (memRuntime okScript) (memService okScript) "o-1"
        { orders := [pendingOrder], tick := 0 }).calls =
      [.FindByID "o-1", .Confirm 42 "f-1", .Save paidAt2] ∧
    (CancelOrder (memService okScript) "o-1" { orders := [pendingOrder], tick := 0 }).calls =
      [.FindByID "o-1", .Release 42 "f-1", .Save canceledOrder] :=
  have h := saga_ordering (memRuntime okScript) (memService okScript) "o-1"
    { orders := [pendingOrder], tick := 0 }
  ⟨h.1 pendingOrder (by rfl) (by rfl) (by rfl), h.2.1 pendingOrder (by rfl) (by rfl) (by rfl)⟩

/-- C19: exactly-once effect when persistence is reliable. Against a lawful store whose
`Save` never fails, for an order `CreateOrder` returned and every history of `ConfirmPay` and
`CancelOrder` calls on that order, whatever the inventory answers, at most one inventory call
of the whole history succeeds; so the log never holds both a successful `Confirm` and a
successful `Release`; and the stored version of the order is the one that log backs. -/
theorem at_most_one_inventory_success {σ : Type} (rt : Runtime σ) (s : OrderService σ)
    (L : StoreLaw rt s) (hsave : ∀ w o, (s.orderRepo.Save o w).1 = none)
    (userID itemID : Int) (freezeID : String) (price : Int) (w : σ) (order : OrderAR)
    (ops : List Op)
    (hc : (CreateOrder rt s userID itemID freezeID price w).out
      = .returned (some order, none))
    (hone : ∀ op ∈ ops, op = .confirmPay order.ID ∨ op = .cancelOrder order.ID) :
    ((runOps (logRuntime rt) (logService s) ops
        ((CreateOrder rt s userID itemID freezeID price w).world, [])).2.filter
          Event.succeeded).length ≤ 1 ∧
    ¬ ((∃ i f, Event.confirm i f none ∈ (runOps (logRuntime rt) (logService s) ops
          ((CreateOrder rt s userID itemID freezeID price w).world, [])).2) ∧
       (∃ i f, Event.release i f none ∈ (runOps (logRuntime rt) (logService s) ops
          ((CreateOrder rt s userID itemID freezeID price w).world, [])).2)) ∧
    Backed L order (runOps (logRuntime rt) (logService s) ops
      ((CreateOrder rt s userID itemID freezeID price w).world, [])) := by
  have hlen := inventory_successes rt s L hsave order.ID ops hone
    ((CreateOrder rt s userID itemID freezeID price w).world, [])
    (by simp) (fun _ _ _ => by simp)
  obtain ⟨hp, _, _, _, hst⟩ := CreateOrder_created rt s L userID itemID freezeID price w order hc
  refine ⟨hlen, ?_, backed_stays rt s L (saveFailKeeps_of_never_fails rt s L hsave) order hp
    ops _ (Or.inl hst)⟩
  rintro ⟨⟨i, f, hconf⟩, ⟨i2, f2, hrel⟩⟩
  have h1 : Event.confirm i f none ∈ (runOps (logRuntime rt) (logService s) ops
      ((CreateOrder rt s userID itemID freezeID price w).world, [])).2.filter
        Event.succeeded := List.mem_filter.2 ⟨hconf, rfl⟩
  have h2 : Event.release i2 f2 none ∈ (runOps (logRuntime rt) (logService s) ops
      ((CreateOrder rt s userID itemID freezeID price w).world, [])).2.filter
        Event.succeeded := List.mem_filter.2 ⟨hrel, rfl⟩
  have heq := eq_of_length_le_one _ hlen _ _ h1 h2
  cases heq

theorem at_most_one_inventory_success_witness :
    (runOps (logRuntime (memRuntime (confirmFailsAt 10)))
        (logService (memService (confirmFailsAt 10)))
        [.confirmPay "o-1", .cancelOrder "o-1", .confirmPay "o-1"]
        ((CreateOrder (memRuntime (confirmFailsAt 10)) (memService (confirmFailsAt 10))
          1 42 "f-1" 500 { orders := [], tick := 6 }).world, [])).2
      = [.confirm 42 "f-1" (some ErrFreeze), .release 42 "f-1" none] ∧
    ((runOps (logRuntime (memRuntime (confirmFailsAt 10)))
        (logService (memService (confirmFailsAt 10)))
        [.confirmPay pendingOrder.ID, .cancelOrder pendingOrder.ID,
          .confirmPay pendingOrder.ID]
        ((CreateOrder (memRuntime (confirmFailsAt 10)) (memService (confirmFailsAt 10))
          1 42 "f-1" 500 { orders := [], tick := 6 }).world, [])).2.filter
            Event.succeeded).length ≤ 1 :=
  ⟨by rfl,
    (at_most_one_inventory_success (memRuntime (confirmFailsAt 10))
      (memService (confirmFailsAt 10)) (memLaw (confirmFailsAt 10)) (fun _ _ => rfl)
      1 42 "f-1" 500 { orders := [], tick := 6 } pendingOrder
      [.confirmPay pendingOrder.ID, .cancelOrder pendingOrder.ID, .confirmPay pendingOrder.ID]
      (by rfl) (by simp)).1⟩

/-- C20: the persisted status is backed by the matching inventory action. Against a lawful
store in which a failed `Save` saves nothing, for an order `CreateOrder` returned and every
history of `ConfirmPay` and `CancelOrder` calls run after it, on any order ids and whatever
the inventory and `Save` calls answer: the order is still stored with its item and freeze
ids; if its stored status is Paid, a `Confirm` with those ids has succeeded in the history,
and if it is Canceled, a `Release` with those ids has succeeded in the history. -/
theorem status_backed_by_inventory {σ : Type} (rt : Runtime σ) (s : OrderService σ)
    (L : StoreLaw rt s) (hk : SaveFailKeeps L) (userID itemID : Int) (freezeID : String)
    (price : Int) (w : σ) (order : OrderAR) (ops : List Op)
    (hc : (CreateOrder rt s userID itemID freezeID price w).out
      = .returned (some order, none)) :
    ∃ o, L.stored (runOps (logRuntime rt) (logService s) ops
        ((CreateOrder rt s userID itemID freezeID price w).world, [])).1 order.ID = some o ∧
      o.ItemID = itemID ∧ o.FreezeID = freezeID ∧
      (o.Status = Order_status_Paid →
        Event.confirm itemID freezeID none ∈ (runOps (logRuntime rt) (logService s) ops
          ((CreateOrder rt s userID itemID freezeID price w).world, [])).2) ∧
      (o.Status = Order_status_Canceled →
        Event.release itemID freezeID none ∈ (runOps (logRuntime rt) (logService s) ops
          ((CreateOrder rt s userID itemID freezeID price w).world, [])).2) := by
  obtain ⟨hp, _, hitem, hfreeze, hst⟩ :=
    CreateOrder_created rt s L userID itemID freezeID price w order hc
  subst hitem
  subst hfreeze
  have hb := backed_stays rt s L hk order hp ops
    ((CreateOrder rt s userID order.ItemID order.FreezeID price w).world, []) (Or.inl hst)
  rcases hb with h | ⟨t, h, hm⟩ | ⟨h, hm⟩
  · refine ⟨order, h, rfl, rfl, ?_, ?_⟩
    · intro hpaid
      rw [hp] at hpaid
      exact absurd hpaid.symm paid_ne_pending
    · intro hcan
      rw [hp] at hcan
      exact absurd hcan.symm canceled_ne_pending
  · refine ⟨_, h, rfl, rfl, ?_, ?_⟩
    · intro _
      exact hm
    · intro hcan
      exact absurd hcan (show Order_status_Paid ≠ Order_status_Canceled by decide)
  · refine ⟨_, h, rfl, rfl, ?_, ?_⟩
    · intro hpaid
      exact absurd hpaid (show Order_status_Canceled ≠ Order_status_Paid by decide)
    · intro _
      exact hm

theorem status_backed_by_inventory_witness :
    ∃ o, (memLaw (saveFailsAt 12)).stored
        (runOps (logRuntime (memRuntime (saveFailsAt 12)))
          (logService (memService (saveFailsAt 12)))
          [.confirmPay "o-1", .confirmPay "o-1", .cancelOrder "o-1"]
          ((CreateOrder (memRuntime (saveFailsAt 12)) (memService (saveFailsAt 12))
            1 42 "f-1" 500 { orders := [], tick := 6 }).world, [])).1 pendingOrder.ID
        = some o ∧
      o.ItemID = 42 ∧ o.FreezeID = "f-1" ∧
      (o.Status = Order_status_Paid →
        Event.confirm 42 "f-1" none ∈
          (runOps (logRuntime (memRuntime (saveFailsAt 12)))
            (logService (memService (saveFailsAt 12)))
            [.confirmPay "o-1", .confirmPay "o-1", .cancelOrder "o-1"]
            ((CreateOrder (memRuntime (saveFailsAt 12)) (memService (saveFailsAt 12))
              1 42 "f-1" 500 { orders := [], tick := 6 }).world, [])).2) ∧
      (o.Status = Order_status_Canceled →
        Event.release 42 "f-1" none ∈
          (runOps (logRuntime (memRuntime (saveFailsAt 12)))
            (logService (memService (saveFailsAt 12)))
            [.confirmPay "o-1", .confirmPay "o-1", .cancelOrder "o-1"]
            ((CreateOrder (memRuntime (saveFailsAt 12)) (memService (saveFailsAt 12))
              1 42 "f-1" 500 { orders := [], tick := 6 }).world, [])).2) :=
  status_backed_by_inventory (memRuntime (saveFailsAt 12)) (memService (saveFailsAt 12))
    (memLaw (saveFailsAt 12)) (memLaw_saveFailKeeps _) 1 42 "f-1" 500
    { orders := [], tick := 6 } pendingOrder
    [.confirmPay "o-1", .confirmPay "o-1", .cancelOrder "o-1"] (by rfl)

/-- C17, as stated, fails: nothing in `ConfirmPay` excludes a second invocation. In the
interleaving load, load, confirm, confirm, persist, persist on one Pending order, both
invocations call `Confirm` and both save a Paid order; the first one's state has payment
timestamp 4 and the second one's `Save` replaces it by 6, so the second transition is not a
no-op. -/
theorem concurrent_confirmPay_counterexample :
    (interleave (memRuntime okScript) (memService okScript) "o-1"
        [false, true, false, true, false, true]
        (Conf.init { orders := [pendingOrder], tick := 0 })).trace
      = [(false, .FindByID "o-1"), (true, .FindByID "o-1"),
         (false, .Confirm 42 "f-1"), (true, .Confirm 42 "f-1"),
         (false, .Save { pendingOrder with Status := Order_status_Paid, PayTime := some 4 }),
         (true, .Save { pendingOrder with Status := Order_status_Paid, PayTime := some 6 })] ∧
    (memLaw okScript).stored
        (interleave (memRuntime okScript) (memService okScript) "o-1"
          [false, true, false, true, false]
          (Conf.init { orders := [pendingOrder], tick := 0 })).world "o-1"
      = some { pendingOrder with Status := Order_status_Paid, PayTime := some 4 } ∧
    (memLaw okScript).stored
        (interleave (memRuntime okScript) (memService okScript) "o-1"
          [false, true, false, true, false, true]
          (Conf.init { orders := [pendingOrder], tick := 0 })).world "o-1"
      = some { pendingOrder with Status := Order_status_Paid, PayTime := some 6 } ∧
    (interleave (memRuntime okScript) (memService okScript) "o-1"
        [false, true, false, true, false, true]
        (Conf.init { orders := [pendingOrder], tick := 0 })).first
      = .finished (.returned none) ∧
    (interleave (memRuntime okScript) (memService okScript) "o-1"
        [false, true, false, true, false, true]
        (Conf.init { orders := [pendingOrder], tick := 0 })).second
      = .finished (.returned none) :=
  ⟨by rfl, by rfl, by rfl, by rfl, by rfl⟩

/-- C17, amended: `ConfirmPay` takes no lock and makes no conditional update. For a stored
Pending order: (a) in every interleaving in which the first invocation has run its three
steps, with `Confirm` and `Save` succeeding, before the second takes a step, the second
invocation makes no port call but `FindByID` (no `Confirm`, no `Save`) and the stored order
stays the first one's Paid order with its payment timestamp; (b) in every interleaving
whatsoever, against a store in which a failed `Save` saves nothing, the stored order stays the
loaded order, still Pending or made Paid with some payment timestamp. -/
theorem serial_confirmPay_second_noop {σ : Type} (rt : Runtime σ) (s : OrderService σ)
    (L : StoreLaw rt s) (hk : SaveFailKeeps L) (orderID : String) (w : σ) (o : OrderAR)
    (hst : L.stored w orderID = some o) (hp : o.Status = Order_status_Pending) :
    (∀ w1 w2 w3 w4 now rest, (s.orderRepo.FindByID orderID w).2 = w1 →
      s.inv.Confirm o.ItemID o.FreezeID w1 = (none, w2) →
      rt.timeNow w2 = (now, w3) →
      s.orderRepo.Save { o with Status := Order_status_Paid, PayTime := some now } w3
        = (none, w4) →
      (interleave rt s orderID ([false, false, false] ++ rest) (Conf.init w)).first
        = .finished (.returned none) ∧
      callsOf false
          (interleave rt s orderID ([false, false, false] ++ rest) (Conf.init w)).trace
        = [.FindByID orderID, .Confirm o.ItemID o.FreezeID,
            .Save { o with Status := Order_status_Paid, PayTime := some now }] ∧
      (callsOf true
          (interleave rt s orderID ([false, false, false] ++ rest) (Conf.init w)).trace = [] ∨
        callsOf true
          (interleave rt s orderID ([false, false, false] ++ rest) (Conf.init w)).trace
          = [.FindByID orderID]) ∧
      L.stored (interleave rt s orderID ([false, false, false] ++ rest) (Conf.init w)).world
          orderID
        = some { o with Status := Order_status_Paid, PayTime := some now }) ∧
    (∀ sched,
      PendingOrPaid o (L.stored (interleave rt s orderID sched (Conf.init w)).world orderID)) := by
  refine ⟨?_, ?_⟩
  · intro w1 w2 w3 w4 now rest hf hc hn hs
    obtain ⟨hrun, hst4⟩ := ConfirmPay_paid rt s L orderID w w1 w2 w3 w4 o now hst hp hf hc hn hs
    obtain ⟨r1, r2, r3, r4, r5⟩ := steps_refine_ConfirmPay rt s orderID w
    rw [hrun] at r1 r2 r3
    simp only at r1 r2 r3
    have h := second_noop_after_first rt s L orderID (L.stored w4) _ hst4 paid_ne_pending
      (.returned none) _ rest
      (interleave rt s orderID [false, false, false] (Conf.init w))
      r1 (by rw [r2]) r3 (Or.inl ⟨r4, r5⟩)
    rw [interleave_append]
    obtain ⟨h1, h2, h3, h4⟩ := h
    refine ⟨h1, h3, ?_, by rw [h2]; exact hst4⟩
    rcases h4 with ⟨_, h5⟩ | ⟨_, h5⟩
    · exact Or.inl h5
    · exact Or.inr h5
  · intro sched
    have hid : o.ID = orderID := L.keyed w orderID o hst
    subst hid
    exact interleave_store_safe rt s L hk o hp sched (Conf.init w) (Or.inl rfl) (Or.inl rfl)
      (Or.inl hst)

theorem serial_confirmPay_second_noop_witness :
    (callsOf true
        (interleave (memRuntime okScript) (memService okScript) "o-1"
          ([false, false, false] ++ [true, false, true, true])
          (Conf.init { orders := [pendingOrder], tick := 0 })).trace = [] ∨
      callsOf true
        (interleave (memRuntime okScript) (memService okScript) "o-1"
          ([false, false, false] ++ [true, false, true, true])
          (Conf.init { orders := [pendingOrder], tick := 0 })).trace = [.FindByID "o-1"]) ∧
    (memLaw okScript).stored
        (interleave (memRuntime okScript) (memService okScript) "o-1"
          ([false, false, false] ++ [true, false, true, true])
          (Conf.init { orders := [pendingOrder], tick := 0 })).world "o-1" = some paidAt2 ∧
    PendingOrPaid pendingOrder ((memLaw okScript).stored
        (interleave (memRuntime okScript) (memService okScript) "o-1"
          [false, true, false, true, false, true]
          (Conf.init { orders := [pendingOrder], tick := 0 })).world "o-1") :=
  have h := serial_confirmPay_second_noop (memRuntime okScript) (memService okScript)
    (memLaw okScript) (memLaw_saveFailKeeps okScript) "o-1"
    { orders := [pendingOrder], tick := 0 } pendingOrder (by rfl) (by rfl)
  have ha := h.1 { orders := [pendingOrder], tick := 1 } { orders := [pendingOrder], tick := 2 }
    { orders := [pendingOrder], tick := 3 } { orders := [paidAt2, pendingOrder], tick := 4 } 2
    [true, false, true, true] (by rfl) (by rfl) (by rfl) (by rfl)
  ⟨ha.2.2.1, ha.2.2.2, h.2 [false, true, false, true, false, true]⟩

end Order
